import Mathlib

/-!
Verification of the geometry/animation conversion core of the
Nusiq-Bmodel / Mcblend Blender add-on, against a shallow embedding of its
Python sources (`mcblend/operator_func/common.py`, `model.py`, `importer.py`,
`operator_func/__init__.py`).

Numeric modelling conventions:
* Python floats are modelled as exact rationals (`ℚ`); `round(x, n)` is
  modelled as decimal round-half-to-even (Python's documented rounding mode).
* `numpy.linalg.norm` only ever feeds comparisons (`>`, `<`) in the sources,
  so squared Euclidean distances are carried instead of square roots; the
  comparisons are equivalent.
* Rotation-matrix semantics (decoding Euler angles) uses real matrices with
  `Real.cos`/`Real.sin`.
-/

/-- A 3-component vector of rationals, modelling the `numpy` arrays of
length 3 that the rotation code manipulates (degrees). -/
structure Vec3 where
  x : ℚ
  y : ℚ
  z : ℚ
deriving DecidableEq, Repr

/-- Round-half-to-even to an integer: the rounding mode of Python's
built-in `round`. -/
def roundHalfEven (q : ℚ) : ℤ :=
  let f := ⌊q⌋
  let frac := q - f
  if frac < 1/2 then f
  else if 1/2 < frac then f + 1
  else if f % 2 = 0 then f else f + 1

/-- Python `round(x, 3)`: round to 3 decimal digits (half-to-even). -/
def pyRound3 (q : ℚ) : ℚ := (roundHalfEven (q * 1000) : ℚ) / 1000

/-- A JSON number as emitted by the exporter: either a Python `int` or a
Python `float`. -/
inductive JNum where
  | int : ℤ → JNum
  | float : ℚ → JNum
deriving DecidableEq, Repr

/-- The numeric value of an emitted JSON number. -/
def jnumVal : JNum → ℚ
  | .int n => (n : ℚ)
  | .float q => q

/-- The per-element body of `get_vect_json` (common.py, lines 155-171):
round to the 3rd decimal digit, replace `-0.0` by `0.0` (a no-op on exact
rationals, kept to mirror the source), and emit integral values as `int`. -/
def jsonRound (x : ℚ) : JNum :=
  let r := pyRound3 x
  let r := if r = 0 then 0 else r   -- `if result[i] == -0.0: result[i] = 0.0`
  if r.den = 1 then .int r.num else .float r

/-- `get_vect_json` (common.py): list of rounded JSON numbers. -/
def get_vect_json (arr : List ℚ) : List JNum := arr.map jsonRound

/-- The `size` serialization of a cube in `get_mcbone_json` (model.py,
line 135): `[round(i) for i in get_vect_json(c_size)]`.  Python `round` on an
`int` returns it unchanged and on a `float` rounds half-to-even to an `int`. -/
def size_json (v : List ℚ) : List ℤ :=
  (get_vect_json v).map (fun i =>
    match i with
    | .int n => n
    | .float q => roundHalfEven q)

/-- The `rotation` serialization of a cube in `get_mcbone_json` (model.py,
line 139): `[i if i != -180 else 180 for i in get_vect_json(c_rot)]`.
The comparison `i != -180` is numeric, so it is modelled on `jnumVal`. -/
def rotation_json (v : List ℚ) : List JNum :=
  (get_vect_json v).map (fun i => if jnumVal i = -180 then .int 180 else i)

/-! ## Version resolution (`pick_version_parser`, importer.py lines 65-90) -/

/-- A JSON path token: object key or array index (used in error values). -/
inductive PathTok where
  | key : String → PathTok
  | idx : ℕ → PathTok
deriving DecidableEq, Repr

/-- Structured refinement of the exceptions raised by the loader.  The
Python code raises `FileIsNotAModelException` with distinct message texts and
`ImportingNotImplementedError` with a field and a path; each raise site gets
its own constructor here.

* `missingKeys` — `_assert_has_required_keys`
* `unexpectedKeys` — `_assert_has_accepted_keys_only`
* `wrongType` — `_assert_is_type` (and the unreachable final `raise`s)
* `invalidVector` — the three assertions inside `_assert_is_vector`
* `notImplemented` — `ImportingNotImplementedError(field, path)`
* `unparseableVersion` — `to_tuple`'s `Unable to parse format version number`
* `unsupportedVersion` — `Unsuported format version`
* `invalidGeometryKey` — the `is invalid geometry name` assertion
* `keyError` — a Python `KeyError` (indexing a missing dictionary key)
* `typeError` — a Python `TypeError`/`AttributeError` (host-level crash) -/
inductive LoadErr where
  | missingKeys : String → List PathTok → LoadErr
  | unexpectedKeys : String → List PathTok → LoadErr
  | wrongType : String → List PathTok → LoadErr
  | invalidVector : String → List PathTok → LoadErr
  | notImplemented : String → List PathTok → LoadErr
  | unparseableVersion : String → LoadErr
  | unsupportedVersion : String → LoadErr
  | invalidGeometryKey : String → LoadErr
  | keyError : String → LoadErr
  | typeError : String → LoadErr
deriving DecidableEq, Repr

instance {ε α : Type} [DecidableEq ε] [DecidableEq α] : DecidableEq (Except ε α) :=
  fun x y =>
  match x, y with
  | .ok a, .ok b =>
    if h : a = b then isTrue (h ▸ rfl) else isFalse (fun hh => h (Except.ok.inj hh))
  | .error a, .error b =>
    if h : a = b then isTrue (h ▸ rfl) else isFalse (fun hh => h (Except.error.inj hh))
  | .ok _, .error _ => isFalse (fun hh => Except.noConfusion hh)
  | .error _, .ok _ => isFalse (fun hh => Except.noConfusion hh)

/-- Python `version.split('.')`, on the character list of the string: split on
every `'.'`; an empty string yields one empty chunk. -/
def splitDot : List Char → List (List Char)
  | [] => [[]]
  | c :: rest =>
    if c = '.' then [] :: splitDot rest
    else
      match splitDot rest with
      | h :: t => (c :: h) :: t
      | [] => [[c]]

/-- The value of a nonempty all-digit character list. -/
def digitsVal (l : List Char) : Option ℕ :=
  match l with
  | [] => none
  | _ =>
    if l.all Char.isDigit then
      some (l.foldl (fun a c => a * 10 + (c.toNat - Char.toNat '0')) 0)
    else none

/-- Python `int(s)` on the chunk strings produced by `split('.')`:
an optional sign followed by decimal digits. -/
def pyInt? (l : List Char) : Option ℤ :=
  match l with
  | '-' :: rest => (digitsVal rest).map (fun n => -(n : ℤ))
  | '+' :: rest => (digitsVal rest).map (fun n => (n : ℤ))
  | _ => (digitsVal l).map (fun n => (n : ℤ))

/-- `to_tuple` inside `pick_version_parser`: split the version string on `.`
and parse every chunk as an integer. -/
def to_tuple (s : String) : Except LoadErr (List ℤ) :=
  match (splitDot s.data).mapM pyInt? with
  | some l => .ok l
  | none => .error (.unparseableVersion s)

/-- Python tuple comparison `a <= b` (lexicographic, shorter prefix first). -/
def lexLeB : List ℤ → List ℤ → Bool
  | [], _ => true
  | _ :: _, [] => false
  | a :: as, b :: bs => if a < b then true else if b < a then false else lexLeB as bs

/-- The descending order used by `t_parsers.sort(reverse=True)`. -/
def verGe (a b : List ℤ) : Prop := lexLeB b a = true

instance : DecidableRel verGe := fun a b =>
  inferInstanceAs (Decidable (lexLeB b a = true))

/-- Python `str(i)` for an integer, as a character list. -/
def intChars (n : ℤ) : List Char :=
  match n with
  | .ofNat m => Nat.toDigits 10 m
  | .negSucc m => '-' :: Nat.toDigits 10 (m + 1)

/-- Python `'.'.join`, on character lists. -/
def joinDot : List (List Char) → List Char
  | [] => []
  | [l] => l
  | l :: rest => l ++ '.' :: joinDot rest

/-- `'.'.join([str(i) for i in t])`. -/
def renderVersion (t : List ℤ) : String := ⟨joinDot (t.map intChars)⟩

/-- `pick_version_parser` (importer.py lines 65-90): parse all supported
parser names and the declared version as integer tuples, sort the parsers
descending, and return the first (hence greatest) parser `≤` the declared
version, re-rendered with `'.'.join`. -/
def pickVersionParser (parsers : List String) (version : String) :
    Except LoadErr String := do
  let t_parsers ← parsers.mapM to_tuple
  let sorted := List.insertionSort verGe t_parsers
  let t_version ← to_tuple version
  match sorted.find? (fun t => lexLeB t t_version) with
  | some best => .ok (renderVersion best)
  | none => .error (.unsupportedVersion version)

/-! ## Rotation continuity (`pick_closest_rotation`, common.py lines 423-487)

The Python helper `_pick_closet_location` keeps one running squared distance
over the whole vector, but each of the three axis loops changes only its own
component, so the accept/reject comparisons depend only on that component.
The loops are therefore modelled per axis, and the returned distance is the
squared distance of the final choice. -/

/-- The first `while` loop of `_pick_closet_location` for one axis: while the
choice is below the target, add 360 unless that strictly increases the
(squared) distance to the target. -/
def alignUp (t c : ℚ) : ℚ :=
  if h : c < t then
    if ((c + 360) - t)^2 > (c - t)^2 then c else alignUp t (c + 360)
  else c
termination_by (⌈(t - c) / 360⌉).toNat
decreasing_by
  have h1 : (0:ℚ) < t - c := by linarith
  have h2 : (t - (c + 360)) / 360 = (t - c) / 360 - ((1:ℤ):ℚ) := by push_cast; ring
  have h3 : ⌈(t - (c + 360)) / 360⌉ = ⌈(t - c) / 360⌉ - 1 := by
    rw [h2, Int.ceil_sub_int]
  have h4 : 0 < ⌈(t - c) / 360⌉ := Int.ceil_pos.mpr (by positivity)
  simp only [h3]
  omega

/-- The second `while` loop of `_pick_closet_location` for one axis: while the
choice is above the target, subtract 360 unless that strictly increases the
(squared) distance to the target. -/
def alignDown (t c : ℚ) : ℚ :=
  if h : t < c then
    if ((c - 360) - t)^2 > (c - t)^2 then c else alignDown t (c - 360)
  else c
termination_by (⌈(c - t) / 360⌉).toNat
decreasing_by
  have h1 : (0:ℚ) < c - t := by linarith
  have h2 : ((c - 360) - t) / 360 = (c - t) / 360 - ((1:ℤ):ℚ) := by push_cast; ring
  have h3 : ⌈((c - 360) - t) / 360⌉ = ⌈(c - t) / 360⌉ - 1 := by
    rw [h2, Int.ceil_sub_int]
  have h4 : 0 < ⌈(c - t) / 360⌉ := Int.ceil_pos.mpr (by positivity)
  simp only [h3]
  omega

/-- One axis of `_pick_closet_location`: the up-loop followed by the
down-loop, exactly as the Python `for i in range(3)` body runs them. -/
def alignAxis (t c : ℚ) : ℚ := alignDown t (alignUp t c)

/-- `_pick_closet_location` (common.py lines 452-473): align each axis in turn
and return the squared distance of the result together with the result. -/
def pickClosetLocation (modify close : Vec3) : ℚ × Vec3 :=
  let cx := alignAxis close.x modify.x
  let cy := alignAxis close.y modify.y
  let cz := alignAxis close.z modify.z
  ((cx - close.x)^2 + (cy - close.y)^2 + (cz - close.z)^2, ⟨cx, cy, cz⟩)

/-- The argument of the second `_pick_closet_location` call (common.py lines
476-484): `(modify + [180, 180 + original_rotation[1]*2, 180]) * [1, -1, 1]`. -/
def secondCandidate (modify orig : Vec3) : Vec3 :=
  ⟨(modify.x + 180) * 1, (modify.y + (180 + orig.y * 2)) * (-1), (modify.z + 180) * 1⟩

/-- `pick_closest_rotation` (common.py lines 423-487).  `none` for the third
argument models the Python default `original_rotation = None`, replaced by
`[0, 0, 0]`. -/
def pick_closest_rotation (modify close_to : Vec3)
    (original_rotation : Option Vec3) : Vec3 :=
  let orig := original_rotation.getD ⟨0, 0, 0⟩
  let r1 := pickClosetLocation modify close_to
  let r2 := pickClosetLocation (secondCandidate modify orig) close_to
  if r2.1 < r1.1 then r2.2 else r1.2

/-- The flip reparametrization exactly as the specification words it (claim
text: `flip(v, rest) = (v.x+180, -(v.y) + 180 + 2*rest.y, v.z+180)`), kept
separate from the source's `secondCandidate` so the two can be compared. -/
def flip_spec (v rest : Vec3) : Vec3 :=
  ⟨v.x + 180, -(v.y) + 180 + 2 * rest.y, v.z + 180⟩

/-! ## The schema loader (`ModelLoader`, importer.py lines 93-696)

JSON values are modelled with exact rationals for numbers.  Python's
`isinstance(x, (int, float))` is modelled as "is a `num`" (the `bool`-is-an-
`int` subtlety of Python is not modelled; no claim depends on it). -/

/-- A JSON value. -/
inductive JValue where
  | obj : List (String × JValue) → JValue
  | arr : List JValue → JValue
  | str : String → JValue
  | num : ℚ → JValue
  | bool : Bool → JValue
  | null : JValue

/-- `data.keys()` of a JSON object body. -/
def keysOf (d : List (String × JValue)) : List String := d.map Prod.fst

/-- Dictionary lookup `d[k]` (first binding wins, as in a parsed JSON dict). -/
def lookupJ (d : List (String × JValue)) (k : String) : Option JValue :=
  (d.find? (fun kv => kv.1 = k)).map Prod.snd

/-- `_assert_has_required_keys` (importer.py lines 42-48): fail when some
required key is missing. -/
def assert_has_required_keys (what : String) (has required : List String)
    (json_path : List PathTok) : Except LoadErr Unit :=
  if required.all (fun k => has.contains k) then .ok ()
  else .error (.missingKeys what json_path)

/-- `_assert_has_accepted_keys_only` (importer.py lines 50-56): fail when some
key lies outside the accepted set. -/
def assert_has_accepted_keys_only (what : String) (has accepted : List String)
    (json_path : List PathTok) : Except LoadErr Unit :=
  if has.all (fun k => accepted.contains k) then .ok ()
  else .error (.unexpectedKeys what json_path)

/-- The content of `_assert_is_vector` (importer.py lines 27-40) for numeric
vectors: the value must be a list, of the given length, of numbers.  Returns
the parsed rationals (the callers re-read the same value on success). -/
def vecNums (v : JValue) (length : ℕ) : Option (List ℚ) :=
  match v with
  | .arr xs =>
    if xs.length = length then
      xs.mapM (fun x => match x with | .num q => some q | _ => none)
    else none
  | _ => none

/-- `_assert_is_vector` followed by reading the numbers. -/
def readVec (name : String) (v : JValue) (length : ℕ) (json_path : List PathTok) :
    Except LoadErr (List ℚ) :=
  match vecNums v length with
  | some xs => .ok xs
  | none => .error (.invalidVector name json_path)

/-- The two supported parser versions, as passed at every call site. -/
def supportedParsers : List String := ["1.12.0", "1.8.0"]

/-- Python `k.startswith(pre)`. -/
def pyStartsWith (s pre : String) : Bool := pre.data.isPrefixOf s.data

/-- `ModelLoader._load_format_version` (importer.py lines 109-146). -/
def load_format_version (data : List (String × JValue)) : Except LoadErr String := do
  _ ← assert_has_required_keys "model file" (keysOf data) ["format_version"] []
  let fvs ← match lookupJ data "format_version" with
    | some (.str s) => pure s
    | some _ => throw (.typeError "format_version")  -- Python: `.split` on a non-string
    | none => throw (.typeError "format_version")    -- unreachable: key just checked
  let parser_version ← pickVersionParser supportedParsers fvs
  if parser_version = "1.12.0" then do
    _ ← assert_has_required_keys "model file" (keysOf data)
      ["minecraft:geometry", "format_version"] []
    _ ← assert_has_accepted_keys_only "model file" (keysOf data)
      ["minecraft:geometry", "format_version", "cape"] []
    if (keysOf data).contains "cape" then throw (.notImplemented "cape" [])
    else pure fvs
  else if parser_version = "1.8.0" then do
    _ ← (keysOf data).forM (fun k =>
      if pyStartsWith k "geometry." || k = "debug" || k = "format_version" then pure ()
      else throw (.invalidGeometryKey k))
    if (keysOf data).contains "debug" then throw (.notImplemented "debug" [])
    else pure fvs
  else throw (.unsupportedVersion fvs)

/-- A cube after `_load_cube` filled in its defaults (importer.py lines
553-561). -/
structure LoadedCube where
  origin : List ℚ := [0, 0, 0]
  size : List ℚ := [0, 0, 0]
  rotation : List ℚ := [0, 0, 0]
  pivot : List ℚ := [0, 0, 0]
  inflate : ℚ := 0
  mirror : Bool
  uv : List ℚ := [0, 0]
deriving DecidableEq, Repr

/-- One optional numeric-vector field of a cube (`if 'x' in cube:` followed by
`_assert_is_vector` and the assignment, importer.py).  `upd` is the
assignment `result['x'] = cube['x']`. -/
def cubeVecField (d : List (String × JValue)) (key : String)
    (cube_path : List PathTok) (r : LoadedCube)
    (upd : LoadedCube → List ℚ → LoadedCube) : Except LoadErr LoadedCube :=
  match lookupJ d key with
  | none => pure r
  | some v => do
    let xs ← readVec key v 3 (cube_path ++ [.key key])
    pure (upd r xs)

/-- The optional `inflate` field of a cube (`_assert_is_type` with
`(int, float)` followed by the assignment). -/
def cubeInflateField (d : List (String × JValue)) (cube_path : List PathTok)
    (r : LoadedCube) : Except LoadErr LoadedCube :=
  match lookupJ d "inflate" with
  | none => pure r
  | some (.num q) => pure { r with inflate := q }
  | some _ => throw (.wrongType "inflate" (cube_path ++ [.key "inflate"]))

/-- The optional `mirror` field of a cube (`_assert_is_type` with `(bool,)`
followed by the assignment). -/
def cubeMirrorField (d : List (String × JValue)) (cube_path : List PathTok)
    (r : LoadedCube) : Except LoadErr LoadedCube :=
  match lookupJ d "mirror" with
  | none => pure r
  | some (.bool b) => pure { r with mirror := b }
  | some _ => throw (.wrongType "mirror" (cube_path ++ [.key "mirror"]))

/-- The optional `uv` field of a cube under the 1.12.0 parser
(importer.py lines 600-613): `_assert_is_type` with `(list, dict)`, then a
dictionary raises `ImportingNotImplementedError('uv dictionary', path)` and a
list is checked as a 2-vector. -/
def cubeUvField12 (d : List (String × JValue)) (cube_path : List PathTok)
    (r : LoadedCube) : Except LoadErr LoadedCube :=
  match lookupJ d "uv" with
  | none => pure r
  | some (.obj _) => throw (.notImplemented "uv dictionary" (cube_path ++ [.key "uv"]))
  | some (.arr xs) => do
    let ys ← readVec "uv" (.arr xs) 2 (cube_path ++ [.key "uv"])
    pure { r with uv := ys }
  | some _ => throw (.wrongType "uv" (cube_path ++ [.key "uv"]))

/-- The optional `uv` field of a cube under the 1.8.0 parser
(importer.py lines 639-644): `_assert_is_type` with `(list,)` only. -/
def cubeUvField8 (d : List (String × JValue)) (cube_path : List PathTok)
    (r : LoadedCube) : Except LoadErr LoadedCube :=
  match lookupJ d "uv" with
  | none => pure r
  | some (.arr xs) => do
    let ys ← readVec "uv" (.arr xs) 2 (cube_path ++ [.key "uv"])
    pure { r with uv := ys }
  | some _ => throw (.wrongType "uv" (cube_path ++ [.key "uv"]))

/-- `ModelLoader._load_cube` (importer.py lines 541-647). -/
def load_cube (fv : String) (cube : JValue) (cube_path : List PathTok)
    (default_mirror : Bool) : Except LoadErr LoadedCube := do
  let r : LoadedCube := { mirror := default_mirror }
  let parser_version ← pickVersionParser supportedParsers fv
  if parser_version = "1.12.0" then do
    let d ← match cube with
      | .obj d => pure d
      | _ => throw (.wrongType "cube" cube_path)
    -- There is no required keys {} is a valid cube
    _ ← assert_has_accepted_keys_only "cube" (keysOf d)
      ["mirror", "inflate", "pivot", "rotation", "origin", "size", "uv"] cube_path
    let r ← cubeVecField d "origin" cube_path r (fun r xs => { r with origin := xs })
    let r ← cubeVecField d "size" cube_path r (fun r xs => { r with size := xs })
    let r ← cubeVecField d "rotation" cube_path r (fun r xs => { r with rotation := xs })
    let r ← cubeVecField d "pivot" cube_path r (fun r xs => { r with pivot := xs })
    let r ← cubeInflateField d cube_path r
    let r ← cubeMirrorField d cube_path r
    let r ← cubeUvField12 d cube_path r
    pure r
  else if parser_version = "1.8.0" then do
    let d ← match cube with
      | .obj d => pure d
      | _ => throw (.wrongType "cube" cube_path)
    -- There is no required keys {} is a valid cube
    _ ← assert_has_accepted_keys_only "cube" (keysOf d)
      ["origin", "size", "uv", "inflate", "mirror"] cube_path
    let r ← cubeVecField d "origin" cube_path r (fun r xs => { r with origin := xs })
    let r ← cubeVecField d "size" cube_path r (fun r xs => { r with size := xs })
    let r ← cubeInflateField d cube_path r
    let r ← cubeMirrorField d cube_path r
    let r ← cubeUvField8 d cube_path r
    pure r
  else throw (.unsupportedVersion fv)

/-- `ModelLoader._load_cubes` (importer.py lines 518-539). -/
def load_cubes (fv : String) (cubes : JValue) (cubes_path : List PathTok)
    (default_mirror : Bool) : Except LoadErr (List LoadedCube) := do
  let parser_version ← pickVersionParser supportedParsers fv
  if parser_version = "1.12.0" || parser_version = "1.8.0" then do
    let l ← match cubes with
      | .arr l => pure l
      | _ => throw (.wrongType "cubes property" cubes_path)
    let rec go (i : ℕ) : List JValue → Except LoadErr (List LoadedCube)
      | [] => pure []
      | c :: rest => do
        let first ← load_cube fv c (cubes_path ++ [.idx i]) default_mirror
        let more ← go (i + 1) rest
        pure (first :: more)
    go 0 l
  else throw (.unsupportedVersion fv)

/-- `ModelLoader._load_locator` (importer.py lines 672-696). -/
def load_locator (fv : String) (locator : JValue) (locator_path : List PathTok) :
    Except LoadErr (List ℚ) := do
  let parser_version ← pickVersionParser supportedParsers fv
  if parser_version = "1.12.0" then
    match locator with
    | .arr _ => readVec "locator" locator 3 locator_path
    | .obj _ => throw (.notImplemented "locator" locator_path)
    | _ => throw (.wrongType "locator" (locator_path ++ [.key "locator"]))
  else if parser_version = "1.8.0" then
    match locator with
    | .arr _ => readVec "locator" locator 3 locator_path
    | _ => throw (.wrongType "locator" locator_path)
  else throw (.unsupportedVersion fv)

/-- `ModelLoader._load_locators` (importer.py lines 649-670). -/
def load_locators (fv : String) (locators : JValue) (locators_path : List PathTok) :
    Except LoadErr (List (String × List ℚ)) := do
  let parser_version ← pickVersionParser supportedParsers fv
  if parser_version = "1.12.0" || parser_version = "1.8.0" then do
    let d ← match locators with
      | .obj d => pure d
      | _ => throw (.wrongType "locators property" locators_path)
    d.mapM (fun kv => do
      let pos ← load_locator fv kv.2 (locators_path ++ [.key kv.1])
      pure (kv.1, pos))
  else throw (.unsupportedVersion fv)

/-- A bone after `_load_bone` filled in its defaults (importer.py lines
346-358).  `poly_mesh` and `texture_meshes` always keep their defaults (any
occurrence of those keys raises), so they are omitted. -/
structure LoadedBone where
  name : String
  parent : Option String := none
  pivot : List ℚ := [0, 0, 0]
  rotation : List ℚ := [0, 0, 0]
  mirror : Bool := false
  inflate : ℚ := 0
  debug : Bool := false
  render_group_id : ℚ := 0
  cubes : List LoadedCube := []
  locators : List (String × List ℚ) := []
deriving DecidableEq, Repr

/-- `ModelLoader._load_bone` (importer.py lines 337-516). -/
def load_bone (fv : String) (bone : JValue) (bone_path : List PathTok) :
    Except LoadErr LoadedBone := do
  let parser_version ← pickVersionParser supportedParsers fv
  if parser_version = "1.12.0" then do
    let d ← match bone with
      | .obj d => pure d
      | _ => throw (.wrongType "bone" bone_path)
    _ ← assert_has_required_keys "bone" (keysOf d) ["name"] bone_path
    _ ← assert_has_accepted_keys_only "bone" (keysOf d)
      ["name", "parent", "pivot", "rotation", "mirror", "inflate",
       "debug", "render_group_id", "cubes", "locators", "poly_mesh",
       "texture_meshes"] bone_path
    let name ← match lookupJ d "name" with
      | some (.str s) => pure s
      | some _ => throw (.wrongType "name" (bone_path ++ [.key "name"]))
      | none => throw (.keyError "name")  -- unreachable: "name" is required
    let r : LoadedBone := { name := name }
    let r ← match lookupJ d "parent" with
      | none => pure r
      | some (.str s) => pure { r with parent := some s }
      | some _ => throw (.wrongType "parent" (bone_path ++ [.key "parent"]))
    let r ← match lookupJ d "pivot" with
      | none => pure r
      | some v => do
        let xs ← readVec "pivot" v 3 (bone_path ++ [.key "pivot"])
        pure { r with pivot := xs }
    let r ← match lookupJ d "rotation" with
      | none => pure r
      | some v => do
        let xs ← readVec "rotation" v 3 (bone_path ++ [.key "rotation"])
        pure { r with rotation := xs }
    let r ← match lookupJ d "mirror" with
      | none => pure r
      | some (.bool b) => pure { r with mirror := b }
      | some _ => throw (.wrongType "mirror" (bone_path ++ [.key "mirror"]))
    _ ← match lookupJ d "inflate" with
      | none => pure ()
      | some (.num _) => throw (.notImplemented "inflate" (bone_path ++ [.key "inflate"]))
      | some _ => throw (.wrongType "inflate" (bone_path ++ [.key "inflate"]))
    _ ← match lookupJ d "debug" with
      | none => pure ()
      | some (.bool _) => throw (.notImplemented "debug" (bone_path ++ [.key "debug"]))
      | some _ => throw (.wrongType "debug" (bone_path ++ [.key "debug"]))
    -- the source checks the (misspelled) key 'redner_group_id' here
    _ ← match lookupJ d "redner_group_id" with
      | none => pure ()
      | some (.num _) =>
        throw (.notImplemented "redner_group_id" (bone_path ++ [.key "redner_group_id"]))
      | some _ =>
        throw (.wrongType "redner_group_id" (bone_path ++ [.key "redner_group_id"]))
    let r ← match lookupJ d "cubes" with
      | none => pure r
      | some v => do
        -- default mirror for cube is the bones mirror property
        let cs ← load_cubes fv v (bone_path ++ [.key "cubes"]) r.mirror
        pure { r with cubes := cs }
    let r ← match lookupJ d "locators" with
      | none => pure r
      | some v => do
        let ls ← load_locators fv v (bone_path ++ [.key "locators"])
        pure { r with locators := ls }
    _ ← match lookupJ d "poly_mesh" with
      | none => pure ()
      | some _ => throw (.notImplemented "poly_mesh" (bone_path ++ [.key "poly_mesh"]))
    _ ← match lookupJ d "texture_meshes" with
      | none => pure ()
      | some _ =>
        throw (.notImplemented "texture_meshes" (bone_path ++ [.key "texture_meshes"]))
    pure r
  else if parser_version = "1.8.0" then do
    let d ← match bone with
      | .obj d => pure d
      | _ => throw (.wrongType "bone" bone_path)
    _ ← assert_has_required_keys "bone" (keysOf d) ["name"] bone_path
    _ ← assert_has_accepted_keys_only "bone" (keysOf d)
      ["name", "reset", "neverRender", "parent", "pivot", "rotation",
       "bind_pose_rotation", "mirror", "inflate", "debug",
       "render_group_id", "cubes", "locators", "poly_mesh",
       "texture_meshes"] bone_path
    let name ← match lookupJ d "name" with
      | some (.str s) => pure s
      | some _ => throw (.wrongType "name" (bone_path ++ [.key "name"]))
      | none => throw (.keyError "name")  -- unreachable: "name" is required
    let r : LoadedBone := { name := name }
    _ ← match lookupJ d "reset" with
      | none => pure ()
      | some (.bool _) => throw (.notImplemented "reset" (bone_path ++ [.key "reset"]))
      | some _ => throw (.wrongType "reset" (bone_path ++ [.key "reset"]))
    _ ← match lookupJ d "neverRender" with
      | none => pure ()
      | some (.bool _) =>
        throw (.notImplemented "neverRender" (bone_path ++ [.key "neverRender"]))
      | some _ => throw (.wrongType "neverRender" (bone_path ++ [.key "neverRender"]))
    let r ← match lookupJ d "parent" with
      | none => pure r
      | some (.str s) => pure { r with parent := some s }
      | some _ => throw (.wrongType "parent" (bone_path ++ [.key "parent"]))
    let r ← match lookupJ d "pivot" with
      | none => pure r
      | some v => do
        let xs ← readVec "pivot" v 3 (bone_path ++ [.key "pivot"])
        pure { r with pivot := xs }
    let r ← match lookupJ d "rotation" with
      | none => pure r
      | some v => do
        let xs ← readVec "rotation" v 3 (bone_path ++ [.key "rotation"])
        pure { r with rotation := xs }
    _ ← match lookupJ d "bind_pose_rotation" with
      | none => pure ()
      | some v => do
        _ ← readVec "bind_pose_rotation" v 3 (bone_path ++ [.key "bind_pose_rotation"])
        throw (.notImplemented "bind_pose_rotation"
          (bone_path ++ [.key "bind_pose_rotation"]))
    let r ← match lookupJ d "mirror" with
      | none => pure r
      | some (.bool b) => pure { r with mirror := b }
      | some _ => throw (.wrongType "mirror" (bone_path ++ [.key "mirror"]))
    _ ← match lookupJ d "inflate" with
      | none => pure ()
      | some (.num _) => throw (.notImplemented "inflate" (bone_path ++ [.key "inflate"]))
      | some _ => throw (.wrongType "inflate" (bone_path ++ [.key "inflate"]))
    _ ← match lookupJ d "debug" with
      | none => pure ()
      | some (.bool _) => throw (.notImplemented "debug" (bone_path ++ [.key "debug"]))
      | some _ => throw (.wrongType "debug" (bone_path ++ [.key "debug"]))
    _ ← match lookupJ d "redner_group_id" with
      | none => pure ()
      | some (.num _) =>
        throw (.notImplemented "redner_group_id" (bone_path ++ [.key "redner_group_id"]))
      | some _ =>
        throw (.wrongType "redner_group_id" (bone_path ++ [.key "redner_group_id"]))
    let r ← match lookupJ d "cubes" with
      | none => pure r
      | some v => do
        let cs ← load_cubes fv v (bone_path ++ [.key "cubes"]) r.mirror
        pure { r with cubes := cs }
    let r ← match lookupJ d "locators" with
      | none => pure r
      | some v => do
        let ls ← load_locators fv v (bone_path ++ [.key "locators"])
        pure { r with locators := ls }
    _ ← match lookupJ d "poly_mesh" with
      | none => pure ()
      | some _ => throw (.notImplemented "poly_mesh" (bone_path ++ [.key "poly_mesh"]))
    _ ← match lookupJ d "texture_meshes" with
      | none => pure ()
      | some _ =>
        throw (.notImplemented "texture_meshes" (bone_path ++ [.key "texture_meshes"]))
    pure r
  else throw (.unsupportedVersion fv)

/-- Python `int(x)` on a number: truncation toward zero. -/
def qtrunc (q : ℚ) : ℤ := if 0 ≤ q then ⌊q⌋ else -⌊-q⌋

/-- The description of a geometry after `_load_description` filled in its
defaults (importer.py lines 214-220). -/
structure LoadedDescription where
  identifier : String
  texture_width : ℤ := 64
  texture_height : ℤ := 64
  visible_bounds_offset : List ℚ := [0, 0, 0]
  visible_bounds_width : ℚ := 1
  visible_bounds_height : ℚ := 1
deriving DecidableEq, Repr

/-- `ModelLoader._load_description` (importer.py lines 206-315). -/
def load_description (fv : String) (geometry : JValue) (geometry_path : List PathTok) :
    Except LoadErr LoadedDescription := do
  let parser_version ← pickVersionParser supportedParsers fv
  if parser_version = "1.12.0" then do
    let g ← match geometry with
      | .obj g => pure g
      | _ => throw (.typeError "geometry")  -- Python: subscripting a non-dict
    let desc ← match lookupJ g "description" with
      | some (.obj desc) => pure desc
      | some _ => throw (.typeError "description")  -- Python: `.keys` on a non-dict
      | none => throw (.keyError "description")
    let path := geometry_path ++ [.key "description"]
    _ ← assert_has_required_keys "description" (keysOf desc) ["identifier"] path
    _ ← assert_has_accepted_keys_only "description" (keysOf desc)
      ["identifier", "texture_width", "texture_height",
       "visible_bounds_offset", "visible_bounds_width",
       "visible_bounds_height"] path
    let ident ← match lookupJ desc "identifier" with
      | some (.str s) => pure s
      | some _ => throw (.wrongType "identifier" (geometry_path ++ [.key "identifier"]))
      | none => throw (.keyError "identifier")  -- unreachable: required
    let r : LoadedDescription := { identifier := ident }
    let r ← match lookupJ desc "texture_width" with
      | none => pure r
      | some (.num q) => pure { r with texture_width := qtrunc q }
      | some _ =>
        throw (.wrongType "texture_width" (geometry_path ++ [.key "texture_width"]))
    let r ← match lookupJ desc "texture_height" with
      | none => pure r
      | some (.num q) => pure { r with texture_height := qtrunc q }
      | some _ =>
        throw (.wrongType "texture_height" (geometry_path ++ [.key "texture_height"]))
    let r ← match lookupJ desc "visible_bounds_offset" with
      | none => pure r
      | some v => do
        let xs ← readVec "visible_bounds_offset" v 3
          (geometry_path ++ [.key "visible_bounds_offset"])
        pure { r with visible_bounds_offset := xs }
    let r ← match lookupJ desc "visible_bounds_width" with
      | none => pure r
      | some (.num q) => pure { r with visible_bounds_width := q }
      | some _ =>
        throw (.wrongType "visible_bounds_width"
          (geometry_path ++ [.key "visible_bounds_width"]))
    let r ← match lookupJ desc "visible_bounds_height" with
      | none => pure r
      | some (.num q) => pure { r with visible_bounds_height := q }
      | some _ =>
        throw (.wrongType "visible_bounds_height"
          (geometry_path ++ [.key "visible_bounds_height"]))
    pure r
  else if parser_version = "1.8.0" then do
    let desc ← match geometry with
      | .obj g => pure g
      | _ => throw (.typeError "geometry")
    let path := geometry_path
    _ ← assert_has_accepted_keys_only "geometry" (keysOf desc)
      ["debug", "visible_bounds_width", "visible_bounds_height",
       "visible_bounds_offset", "texturewidth", "textureheight",
       "cape", "bones"] path
    let ident ← match path.getLast? with
      | some (.key s) => pure s
      | some (.idx _) => throw (.wrongType "identifier" (geometry_path ++ [.key "identifier"]))
      | none => throw (.typeError "identifier")  -- Python: `path[-1]` on `[]`
    let r : LoadedDescription := { identifier := ident }
    _ ← match lookupJ desc "debug" with
      | none => pure ()
      | some (.bool _) => throw (.notImplemented "debug" (path ++ [.key "debug"]))
      | some _ => throw (.wrongType "debug" (geometry_path ++ [.key "debug"]))
    let r ← match lookupJ desc "texturewidth" with
      | none => pure r
      | some (.num q) => pure { r with texture_width := qtrunc q }  -- texture_width not texturewidth (not a bug!!!)
      | some _ =>
        throw (.wrongType "texturewidth" (geometry_path ++ [.key "texturewidth"]))
    let r ← match lookupJ desc "textureheight" with
      | none => pure r
      | some (.num q) => pure { r with texture_height := qtrunc q }  -- texture_height not textureheight (not a bug!!!)
      | some _ =>
        throw (.wrongType "textureheight" (geometry_path ++ [.key "textureheight"]))
    let r ← match lookupJ desc "visible_bounds_offset" with
      | none => pure r
      | some v => do
        let xs ← readVec "visible_bounds_offset" v 3
          (geometry_path ++ [.key "visible_bounds_offset"])
        pure { r with visible_bounds_offset := xs }
    let r ← match lookupJ desc "visible_bounds_width" with
      | none => pure r
      | some (.num q) => pure { r with visible_bounds_width := q }
      | some _ =>
        throw (.wrongType "visible_bounds_width"
          (geometry_path ++ [.key "visible_bounds_width"]))
    let r ← match lookupJ desc "visible_bounds_height" with
      | none => pure r
      | some (.num q) => pure { r with visible_bounds_height := q }
      | some _ =>
        throw (.wrongType "visible_bounds_height"
          (geometry_path ++ [.key "visible_bounds_height"]))
    pure r
  else throw (.unsupportedVersion fv)

/-! ## Pivot resolution (`get_mcpivot`, common.py lines 259-293)

World transforms are 4×4 real matrices as in `mathutils`.  The `mathutils`
operations used by the source (`normalized`, `inverted`, `@`,
`to_translation`) are external-library calls and are modelled from their
documented behaviour: `normalized` scales each of the three basis columns to
unit length and keeps the translation column, `inverted` is matrix inversion,
`to_translation` reads the translation column. -/

/-- A 4×4 world matrix. -/
abbrev Mat4 : Type := Matrix (Fin 4) (Fin 4) ℝ

/-- A 3-component real vector. -/
structure Vec3R where
  x : ℝ
  y : ℝ
  z : ℝ

instance : Add Vec3R := ⟨fun a b => ⟨a.x + b.x, a.y + b.y, a.z + b.z⟩⟩

theorem vec3R_add_def (a b : Vec3R) : a + b = ⟨a.x + b.x, a.y + b.y, a.z + b.z⟩ := rfl

/-- Scalar multiple of a real vector. -/
def vscale (r : ℝ) (v : Vec3R) : Vec3R := ⟨r * v.x, r * v.y, r * v.z⟩

/-- `mathutils.Matrix.normalized()`: each basis column divided by its
Euclidean length, translation kept. -/
noncomputable def matNormalized (m : Mat4) : Mat4 :=
  Matrix.of fun i j =>
    if (j : ℕ) < 3 then m i j / Real.sqrt ((m 0 j)^2 + (m 1 j)^2 + (m 2 j)^2)
    else m i j

/-- `mathutils.Matrix.to_translation()`. -/
def matToTranslation (m : Mat4) : Vec3R := ⟨m 0 3, m 1 3, m 2 3⟩

/-- `get_local_matrix` (common.py lines 174-189):
`parent_world_matrix.inverted() @ child_world_matrix`. -/
noncomputable def get_local_matrix (parent_world child_world : Mat4) : Mat4 :=
  parent_world⁻¹ * child_world

/-- `local_crds` inside `get_mcpivot` (common.py lines 274-280): normalize
both matrices (eliminate scale) and take the translation of the local
matrix. -/
noncomputable def local_crds (parent_matrix child_matrix : Mat4) : Vec3R :=
  matToTranslation
    (get_local_matrix (matNormalized parent_matrix) (matNormalized child_matrix))

/-- `numpy` `.xzy` swizzle applied at the end of `get_mcpivot`. -/
def vecXzy (v : Vec3R) : Vec3R := ⟨v.x, v.z, v.y⟩

/-- `ObjectId` (common.py lines 30-37). -/
structure ObjectId where
  name : String
  bone_name : String
deriving DecidableEq, Repr

/-- The part of `ObjectMcProperties` that `get_mcpivot` reads: the world
matrix (`matrix_world()`) and the Minecraft parent id (`mcparent`). -/
structure PivotProps where
  world : Mat4
  mcparent : Option ObjectId

/-- The `object_properties` dictionary, as an association list. -/
def lookupProps (props : List (ObjectId × PivotProps)) (id : ObjectId) :
    Option PivotProps :=
  (props.find? (fun kv => decide (kv.1 = id))).map Prod.snd

/-- Failures of the pivot recursion: a Python `KeyError` when a parent id is
not in the dictionary, and Python's `RecursionError` when the recursion depth
limit is exhausted. -/
inductive PivotErr where
  | keyError
  | recursionLimit
deriving DecidableEq, Repr

/-- `_get_mcpivot` inside `get_mcpivot` (common.py lines 282-291).  The
Python function recurses without any cycle detection; the `fuel` argument
models CPython's recursion-depth limit, which turns a non-terminating
recursion into a `RecursionError`. -/
noncomputable def getMcpivotAux (props : List (ObjectId × PivotProps)) :
    ℕ → PivotProps → Except PivotErr Vec3R
  | 0, _ => .error .recursionLimit
  | fuel + 1, op =>
    match op.mcparent with
    | some pid =>
      match lookupProps props pid with
      | none => .error .keyError
      | some pp => do
        let rest ← getMcpivotAux props fuel pp
        pure (local_crds pp.world op.world + rest)
    | none => .ok (matToTranslation op.world)

/-- `get_mcpivot` (common.py lines 259-293): the recursion result, swizzled
`.xzy`. -/
noncomputable def get_mcpivot (props : List (ObjectId × PivotProps)) (fuel : ℕ)
    (op : PivotProps) : Except PivotErr Vec3R :=
  (getMcpivotAux props fuel op).map vecXzy

/-- `MINECRAFT_SCALE_FACTOR` (common.py line 16). -/
def MINECRAFT_SCALE_FACTOR : ℚ := 16

/-- The scaled pivot used by the exporter (model.py line 89):
`get_mcpivot(...) * MINECRAFT_SCALE_FACTOR`. -/
noncomputable def get_mcpivot_scaled (props : List (ObjectId × PivotProps))
    (fuel : ℕ) (op : PivotProps) : Except PivotErr Vec3R :=
  (get_mcpivot props fuel op).map (vscale (MINECRAFT_SCALE_FACTOR : ℝ))

/-- One step of the parent chain: `mcparent` followed by the dictionary
lookup. -/
noncomputable def chainStep (props : List (ObjectId × PivotProps))
    (op : PivotProps) : Option PivotProps :=
  op.mcparent.bind (lookupProps props)

/-- The `n`-th ancestor of `op` along `mcparent`, when every step exists. -/
noncomputable def chain (props : List (ObjectId × PivotProps)) (op : PivotProps) :
    ℕ → Option PivotProps
  | 0 => some op
  | n + 1 => (chain props op n).bind (chainStep props)

/-- The parent chain from `op` reaches a parentless root within `n` steps,
with every dictionary lookup on the way succeeding. -/
def rootedWithin (props : List (ObjectId × PivotProps)) :
    ℕ → PivotProps → Prop
  | 0, op => op.mcparent = none
  | n + 1, op =>
    op.mcparent = none ∨
    ∃ pid pp, op.mcparent = some pid ∧ lookupProps props pid = some pp ∧
      rootedWithin props n pp

/-! ## Name conflicts and export (`get_name_conflicts`, common.py lines
343-365; the export operator) -/

/-- `MCObjType` (common.py lines 19-27). -/
inductive MCObjType where
  | cube
  | bone
  | both
  | locator
deriving DecidableEq, Repr

/-- The part of `ObjectMcProperties` that the name-conflict check reads: the
exported name (the `name()` method) and the Minecraft type. -/
structure NameProps where
  name : String
  mctype : MCObjType
deriving DecidableEq, Repr

/-- The loop of `get_name_conflicts`, with `names` the accumulator list. -/
def nameConflictsGo : List NameProps → List String → String
  | [], _ => ""
  | p :: rest, names =>
    if p.mctype = MCObjType.bone ∨ p.mctype = MCObjType.both then
      if p.name ∈ names then p.name
      else nameConflictsGo rest (names ++ [p.name])
    else nameConflictsGo rest names  -- Only bone names conflicts count

/-- `get_name_conflicts` (common.py lines 343-365): returns the empty string
when there is no conflict, otherwise a conflicting name. -/
def get_name_conflicts (props : List NameProps) : String :=
  nameConflictsGo props []

/-- Export failure: a repeated bone name. -/
inductive ExportErr where
  | nameConflict : String → ExportErr
deriving DecidableEq, Repr

/-- Modelled from the spec: the export operator that invokes
`get_name_conflicts` before serializing is not among the sources (only
`get_name_conflicts` itself is); per the spec's export contract, export first
runs the name-conflict check and fails with `NameConflict(name)` before
producing any JSON, and only on success runs the JSON assembly (abstracted
here as the function `build`). -/
def export_model (props : List NameProps) (build : List NameProps → JValue) :
    Except ExportErr JValue :=
  let conflict := get_name_conflicts props
  if conflict ≠ "" then .error (.nameConflict conflict)
  else .ok (build props)

/-- Does a `BONE`/`BOTH` entry with this exported name occur?  (counting
predicate for conflict statements). -/
def bbNamed (n : String) (p : NameProps) : Bool :=
  (p.mctype = MCObjType.bone ∨ p.mctype = MCObjType.both : Bool) && p.name = n

/-! ## Importer parenting (`ImportGeometry.build`, importer.py lines 843-871) -/

/-- The part of an `ImportBone` that the parenting phase reads. -/
structure BuiltBone where
  name : String
  parent : Option String
deriving DecidableEq, Repr

/-- `bone.parent in self.bones`: membership among the names keying the
`self.bones` dictionary. -/
def memberBones (bones : List BuiltBone) (p : String) : Bool :=
  bones.any (fun b => b.name = p)

/-- The parent link that the parenting phase of `ImportGeometry.build`
(importer.py lines 846-855) gives a bone: the Blender parent is set only when
the declared parent is not `None` *and* is a key of `self.bones`; otherwise
the bone is left unparented (a root).  No branch of the phase raises. -/
def parentLinkOf (bones : List BuiltBone) (b : BuiltBone) : Option String :=
  match b.parent with
  | some p => if memberBones bones p then some p else none
  | none => none

/-! ## Euler-angle decoding semantics

`get_mcrotation` (common.py lines 192-228) produces a Minecraft rotation
vector from a Blender `'XZY'` Euler triple `(ex, ey, ez)` as
`(ex, -ez, ey)` (the `[[0, 2, 1]]` permutation followed by `* [1, -1, 1]`).
Decoding inverts this: a Minecraft vector `v` denotes the Blender Euler
triple `ex = v.x`, `ey = v.z`, `ez = -v.y`, composed in the `'XZY'`
application order (X first, then Z, then Y), i.e. the matrix
`Ry ey * Rz ez * Rx ex`.  Angles are degrees, converted to radians. -/

/-- Degrees to radians. -/
noncomputable def radOfDeg (q : ℚ) : ℝ := (q : ℝ) * Real.pi / 180

/-- Rotation about the x axis. -/
noncomputable def Rx (a : ℝ) : Matrix (Fin 3) (Fin 3) ℝ :=
  !![1, 0, 0;
     0, Real.cos a, -Real.sin a;
     0, Real.sin a, Real.cos a]

/-- Rotation about the y axis. -/
noncomputable def Ry (a : ℝ) : Matrix (Fin 3) (Fin 3) ℝ :=
  !![Real.cos a, 0, Real.sin a;
     0, 1, 0;
     -Real.sin a, 0, Real.cos a]

/-- Rotation about the z axis. -/
noncomputable def Rz (a : ℝ) : Matrix (Fin 3) (Fin 3) ℝ :=
  !![Real.cos a, -Real.sin a, 0;
     Real.sin a, Real.cos a, 0;
     0, 0, 1]

/-- The rotation matrix denoted by a Minecraft rotation vector (degrees),
re-composed in the fixed X-then-Z-then-Y order. -/
noncomputable def decodeXZY (v : Vec3) : Matrix (Fin 3) (Fin 3) ℝ :=
  Ry (radOfDeg v.z) * Rz (radOfDeg (-v.y)) * Rx (radOfDeg v.x)

/-! ## Theorems -/

theorem exceptBind_ok {ε α β : Type} (a : α) (f : α → Except ε β) :
    (Except.ok a >>= f : Except ε β) = f a := rfl

theorem exceptBind_error {ε α β : Type} (e : ε) (f : α → Except ε β) :
    (Except.error e >>= f : Except ε β) = Except.error e := rfl

theorem pick_supported_1_12 :
    pickVersionParser supportedParsers "1.12.0" = .ok "1.12.0" := by decide

theorem pick_supported_1_8 :
    pickVersionParser supportedParsers "1.8.0" = .ok "1.8.0" := by decide

/-- **C9.** For every structurally valid document, missing optional fields are
filled with their documented defaults and never cause an error: an empty cube
object is valid and gets `size=[0,0,0]`, `origin=[0,0,0]`, `rotation=[0,0,0]`,
`pivot=[0,0,0]`, `inflate=0`, `uv=[0,0]` and the bone's `mirror`; a bone with
only a name defaults to `mirror=false`, `pivot=[0,0,0]`, `rotation=[0,0,0]`,
no parent; a description defaults to `texture_width=64`, `texture_height=64`;
and a cube inside a `mirror=true` bone inherits `mirror=true`. -/
theorem c9_defaults :
    (∀ (dm : Bool) (path : List PathTok),
      load_cube "1.12.0" (.obj []) path dm =
        .ok { origin := [0, 0, 0], size := [0, 0, 0], rotation := [0, 0, 0],
              pivot := [0, 0, 0], inflate := 0, mirror := dm, uv := [0, 0] } ∧
      load_cube "1.8.0" (.obj []) path dm =
        .ok { origin := [0, 0, 0], size := [0, 0, 0], rotation := [0, 0, 0],
              pivot := [0, 0, 0], inflate := 0, mirror := dm, uv := [0, 0] }) ∧
    (∀ (n : String) (path : List PathTok),
      load_bone "1.12.0" (.obj [("name", .str n)]) path =
        .ok { name := n, parent := none, pivot := [0, 0, 0],
              rotation := [0, 0, 0], mirror := false, cubes := [],
              locators := [] } ∧
      load_bone "1.8.0" (.obj [("name", .str n)]) path =
        .ok { name := n, parent := none, pivot := [0, 0, 0],
              rotation := [0, 0, 0], mirror := false, cubes := [],
              locators := [] }) ∧
    (∀ (s : String) (path : List PathTok),
      load_description "1.12.0"
          (.obj [("description", .obj [("identifier", .str s)])]) path =
        .ok { identifier := s, texture_width := 64, texture_height := 64 }) ∧
    (∀ (n : String) (path : List PathTok),
      load_bone "1.12.0"
          (.obj [("name", .str n), ("mirror", .bool true),
                 ("cubes", .arr [.obj []])]) path =
        .ok { name := n, mirror := true, cubes := [{ mirror := true }] }) :=
  ⟨fun _ _ => ⟨rfl, rfl⟩, fun _ _ => ⟨rfl, rfl⟩, fun _ _ => rfl, fun _ _ => rfl⟩

/-- **C10.** (implicit) A bone whose declared parent name does not match any
bone of the loaded geometry is silently left unparented (it becomes a root);
the parenting phase links a bone only to a declared parent that exists, and
never fails. -/
theorem c10_dangling_parent :
    (∀ (bones : List BuiltBone) (b : BuiltBone) (p : String),
      b.parent = some p → (∀ q ∈ bones, q.name ≠ p) →
      parentLinkOf bones b = none) ∧
    (∀ (bones : List BuiltBone) (b : BuiltBone) (p : String),
      parentLinkOf bones b = some p →
      b.parent = some p ∧ ∃ q ∈ bones, q.name = p) := by
  constructor
  · intro bones b p hp hno
    have hmem : memberBones bones p = false := by
      simp only [memberBones, List.any_eq_false, decide_eq_true_eq]
      exact hno
    simp [parentLinkOf, hp, hmem]
  · intro bones b p hlink
    unfold parentLinkOf at hlink
    cases hb : b.parent with
    | none => rw [hb] at hlink; cases hlink
    | some q =>
      rw [hb] at hlink
      dsimp only at hlink
      by_cases hm : memberBones bones q = true
      · rw [if_pos hm] at hlink
        cases hlink
        refine ⟨rfl, ?_⟩
        simpa only [memberBones, List.any_eq_true, decide_eq_true_eq] using hm
      · rw [if_neg hm] at hlink; cases hlink

/-- **C10 witness.** A concrete bone with a dangling parent reference stays a
root. -/
theorem c10_witness :
    parentLinkOf [⟨"root", none⟩, ⟨"child", some "ghost"⟩]
      ⟨"child", some "ghost"⟩ = none :=
  c10_dangling_parent.1 [⟨"root", none⟩, ⟨"child", some "ghost"⟩]
    ⟨"child", some "ghost"⟩ "ghost" rfl (by decide)

theorem allContains_iff (has required : List String) :
    (required.all (fun k => has.contains k) = true) ↔ ∀ k ∈ required, k ∈ has := by
  simp

/-- **C6.** Parsing fails with `UnsupportedStructure` (the
`FileIsNotAModelException` of `_assert_has_required_keys` /
`_assert_has_accepted_keys_only`) exactly when a required key is missing or a
key lies outside the accepted set; in particular a document without
`format_version` fails with the missing-keys error carrying the empty
path `[]`. -/
theorem c6_structure_validation :
    (∀ (what : String) (has required : List String) (path : List PathTok),
      (assert_has_required_keys what has required path = .ok () ↔
        ∀ k ∈ required, k ∈ has) ∧
      (assert_has_required_keys what has required path =
          .error (.missingKeys what path) ↔ ¬ ∀ k ∈ required, k ∈ has)) ∧
    (∀ (what : String) (has accepted : List String) (path : List PathTok),
      (assert_has_accepted_keys_only what has accepted path = .ok () ↔
        ∀ k ∈ has, k ∈ accepted) ∧
      (assert_has_accepted_keys_only what has accepted path =
          .error (.unexpectedKeys what path) ↔ ¬ ∀ k ∈ has, k ∈ accepted)) ∧
    (∀ data : List (String × JValue), "format_version" ∉ keysOf data →
      load_format_version data = .error (.missingKeys "model file" [])) := by
  refine ⟨?_, ?_, ?_⟩
  · intro what has required path
    unfold assert_has_required_keys
    by_cases h : ∀ k ∈ required, k ∈ has
    · rw [if_pos ((allContains_iff has required).mpr h)]
      exact ⟨⟨fun _ => h, fun _ => rfl⟩,
             ⟨fun hh => Except.noConfusion hh, fun hh => absurd h hh⟩⟩
    · rw [if_neg (fun hx => h ((allContains_iff has required).mp hx))]
      exact ⟨⟨fun hh => Except.noConfusion hh, fun hx => absurd hx h⟩,
             ⟨fun _ => h, fun _ => rfl⟩⟩
  · intro what has accepted path
    unfold assert_has_accepted_keys_only
    by_cases h : ∀ k ∈ has, k ∈ accepted
    · rw [if_pos ((allContains_iff accepted has).mpr h)]
      exact ⟨⟨fun _ => h, fun _ => rfl⟩,
             ⟨fun hh => Except.noConfusion hh, fun hh => absurd h hh⟩⟩
    · rw [if_neg (fun hx => h ((allContains_iff accepted has).mp hx))]
      exact ⟨⟨fun hh => Except.noConfusion hh, fun hx => absurd hx h⟩,
             ⟨fun _ => h, fun _ => rfl⟩⟩
  · intro data h
    unfold load_format_version
    have hc : assert_has_required_keys "model file" (keysOf data) ["format_version"] [] =
        .error (.missingKeys "model file" []) := by
      unfold assert_has_required_keys
      rw [if_neg (fun hx =>
        h (((allContains_iff (keysOf data) ["format_version"]).mp hx)
          "format_version" (by simp)))]
    rw [hc]
    rfl

/-- **C6 witness.** The empty document fails with the missing-keys error at
path `[]`. -/
theorem c6_witness :
    load_format_version [] = .error (.missingKeys "model file" []) :=
  c6_structure_validation.2.2 [] (by simp [keysOf])

theorem exceptPure_ok {ε α : Type} (a : α) : (pure a : Except ε α) = .ok a := rfl

theorem exceptThrow_error {ε α : Type} (e : ε) : (throw e : Except ε α) = .error e := rfl

theorem cubeVecField_ok (d : List (String × JValue)) (key : String)
    (cube_path : List PathTok) (r : LoadedCube)
    (upd : LoadedCube → List ℚ → LoadedCube)
    (h : lookupJ d key = none ∨ ∃ v xs, lookupJ d key = some v ∧ vecNums v 3 = some xs) :
    ∃ s, cubeVecField d key cube_path r upd = .ok s := by
  rcases h with h | ⟨v, xs, h, hxs⟩
  · exact ⟨r, by simp [cubeVecField, h, exceptPure_ok]⟩
  · exact ⟨upd r xs, by simp [cubeVecField, h, readVec, hxs, exceptPure_ok, exceptBind_ok]⟩

theorem cubeInflateField_ok (d : List (String × JValue)) (cube_path : List PathTok)
    (r : LoadedCube)
    (h : lookupJ d "inflate" = none ∨ ∃ q, lookupJ d "inflate" = some (.num q)) :
    ∃ s, cubeInflateField d cube_path r = .ok s := by
  rcases h with h | ⟨q, h⟩
  · exact ⟨r, by simp [cubeInflateField, h, exceptPure_ok]⟩
  · exact ⟨{ r with inflate := q }, by simp [cubeInflateField, h, exceptPure_ok]⟩

theorem cubeMirrorField_ok (d : List (String × JValue)) (cube_path : List PathTok)
    (r : LoadedCube)
    (h : lookupJ d "mirror" = none ∨ ∃ b, lookupJ d "mirror" = some (.bool b)) :
    ∃ s, cubeMirrorField d cube_path r = .ok s := by
  rcases h with h | ⟨b, h⟩
  · exact ⟨r, by simp [cubeMirrorField, h, exceptPure_ok]⟩
  · exact ⟨{ r with mirror := b }, by simp [cubeMirrorField, h, exceptPure_ok]⟩

/-- **C7 counterexample.** Under the 1.8.0 parser, a cube whose `uv` is a
dictionary fails with the `_assert_is_type` structure error, not with
`UnsupportedFeature("uv dictionary", path)`; so the claim, universally over
cubes, is false. -/
theorem c7_counterexample :
    load_cube "1.8.0" (.obj [("uv", .obj [])]) [] false =
      .error (.wrongType "uv" [.key "uv"]) ∧
    ∀ (field : String) (path : List PathTok),
      load_cube "1.8.0" (.obj [("uv", .obj [])]) [] false ≠
        .error (.notImplemented field path) := by
  have h : load_cube "1.8.0" (.obj [("uv", .obj [])]) [] false =
      .error (.wrongType "uv" [.key "uv"]) := by decide
  refine ⟨h, ?_⟩
  intro field path hh
  rw [h] at hh
  simp at hh

/-- **C7 (amended).** Under the 1.12.0 parser, a cube whose fields preceding
`uv` all validate and whose `uv` is a dictionary fails with the distinct
`UnsupportedFeature` error `notImplemented "uv dictionary"` carrying the path
to the `uv` field — not with a structure error. -/
theorem c7_uv_dictionary (d : List (String × JValue)) (path : List PathTok)
    (dm : Bool)
    (hkeys : ∀ k ∈ keysOf d,
      k ∈ ["mirror", "inflate", "pivot", "rotation", "origin", "size", "uv"])
    (horigin : lookupJ d "origin" = none ∨
      ∃ v xs, lookupJ d "origin" = some v ∧ vecNums v 3 = some xs)
    (hsize : lookupJ d "size" = none ∨
      ∃ v xs, lookupJ d "size" = some v ∧ vecNums v 3 = some xs)
    (hrot : lookupJ d "rotation" = none ∨
      ∃ v xs, lookupJ d "rotation" = some v ∧ vecNums v 3 = some xs)
    (hpivot : lookupJ d "pivot" = none ∨
      ∃ v xs, lookupJ d "pivot" = some v ∧ vecNums v 3 = some xs)
    (hinfl : lookupJ d "inflate" = none ∨ ∃ q, lookupJ d "inflate" = some (.num q))
    (hmirror : lookupJ d "mirror" = none ∨ ∃ b, lookupJ d "mirror" = some (.bool b))
    (huv : ∃ u, lookupJ d "uv" = some (.obj u)) :
    load_cube "1.12.0" (.obj d) path dm =
      .error (.notImplemented "uv dictionary" (path ++ [.key "uv"])) := by
  obtain ⟨u, hu⟩ := huv
  have hacc : assert_has_accepted_keys_only "cube" (keysOf d)
      ["mirror", "inflate", "pivot", "rotation", "origin", "size", "uv"] path =
      .ok () := by
    unfold assert_has_accepted_keys_only
    rw [if_pos ((allContains_iff _ _).mpr hkeys)]
  obtain ⟨r1, h1⟩ := cubeVecField_ok d "origin" path { mirror := dm }
    (fun r xs => { r with origin := xs }) horigin
  obtain ⟨r2, h2⟩ := cubeVecField_ok d "size" path r1
    (fun r xs => { r with size := xs }) hsize
  obtain ⟨r3, h3⟩ := cubeVecField_ok d "rotation" path r2
    (fun r xs => { r with rotation := xs }) hrot
  obtain ⟨r4, h4⟩ := cubeVecField_ok d "pivot" path r3
    (fun r xs => { r with pivot := xs }) hpivot
  obtain ⟨r5, h5⟩ := cubeInflateField_ok d path r4 hinfl
  obtain ⟨r6, h6⟩ := cubeMirrorField_ok d path r5 hmirror
  have huvd : cubeUvField12 d path r6 =
      .error (.notImplemented "uv dictionary" (path ++ [.key "uv"])) := by
    unfold cubeUvField12
    rw [hu]
    rfl
  unfold load_cube
  rw [pick_supported_1_12]
  simp only [exceptBind_ok, exceptPure_ok, exceptThrow_error, reduceIte,
    hacc, h1, h2, h3, h4, h5, h6, huvd, exceptBind_error]

/-- **C7 witness.** A concrete cube `{"uv": {}}` under the 1.12.0 parser. -/
theorem c7_witness :
    load_cube "1.12.0" (.obj [("uv", .obj [])]) [] false =
      .error (.notImplemented "uv dictionary" [.key "uv"]) :=
  c7_uv_dictionary [("uv", .obj [])] [] false (by decide)
    (Or.inl rfl) (Or.inl rfl) (Or.inl rfl) (Or.inl rfl) (Or.inl rfl) (Or.inl rfl)
    ⟨[], rfl⟩

theorem nameConflictsGo_empty_bound (props : List NameProps) (names : List String)
    (hne : ∀ p ∈ props, (p.mctype = MCObjType.bone ∨ p.mctype = MCObjType.both) →
      p.name ≠ "")
    (h : nameConflictsGo props names = "") :
    ∀ n : String, props.countP (bbNamed n) + (if n ∈ names then 1 else 0) ≤ 1 := by
  induction props generalizing names with
  | nil =>
    intro n
    simp only [List.countP_nil, Nat.zero_add]
    split <;> omega
  | cons p rest ih =>
    intro n
    by_cases hbb : p.mctype = MCObjType.bone ∨ p.mctype = MCObjType.both
    · rw [nameConflictsGo, if_pos hbb] at h
      by_cases hmem : p.name ∈ names
      · rw [if_pos hmem] at h
        exact absurd h (hne p (List.mem_cons_self p rest) hbb)
      · rw [if_neg hmem] at h
        have := ih (names ++ [p.name])
          (fun q hq hbq => hne q (List.mem_cons_of_mem p hq) hbq) h n
        rw [List.countP_cons]
        by_cases hn : bbNamed n p = true
        · have hpn : p.name = n := by
            simp only [bbNamed, Bool.and_eq_true, decide_eq_true_eq] at hn
            exact hn.2
          have hmm : n ∈ names ++ [p.name] := by
            rw [hpn] at hmem ⊢
            simp
          rw [if_pos hmm] at this
          have hnn : ¬ n ∈ names := by rw [← hpn]; exact hmem
          rw [if_neg hnn]
          simp only [hn, if_pos]
          omega
        · have hnot : (if n ∈ names then 1 else 0) ≤
              (if n ∈ names ++ [p.name] then 1 else 0) := by
            by_cases hin : n ∈ names
            · rw [if_pos hin, if_pos (by simp [hin])]
            · rw [if_neg hin]; split <;> omega
          simp only [hn, if_neg, Bool.false_eq_true, not_false_eq_true]
          omega
    · rw [nameConflictsGo, if_neg hbb] at h
      have := ih names (fun q hq hbq => hne q (List.mem_cons_of_mem p hq) hbq) h n
      rw [List.countP_cons]
      have hn : bbNamed n p = false := by
        simp only [bbNamed, Bool.and_eq_false_iff]
        left
        simpa using hbb
      simp only [hn, Bool.false_eq_true, if_false]
      omega

theorem nameConflictsGo_found (props : List NameProps) (names : List String)
    (m : String) (h : nameConflictsGo props names = m) (hm : m ≠ "") :
    (m ∈ names ∧ 1 ≤ props.countP (bbNamed m)) ∨ 2 ≤ props.countP (bbNamed m) := by
  induction props generalizing names with
  | nil =>
    rw [nameConflictsGo] at h
    exact absurd h.symm hm
  | cons p rest ih =>
    by_cases hbb : p.mctype = MCObjType.bone ∨ p.mctype = MCObjType.both
    · rw [nameConflictsGo, if_pos hbb] at h
      by_cases hmem : p.name ∈ names
      · rw [if_pos hmem] at h
        subst h
        left
        refine ⟨hmem, ?_⟩
        rw [List.countP_cons]
        have : bbNamed p.name p = true := by
          simp [bbNamed, hbb]
        simp [this]
      · rw [if_neg hmem] at h
        rcases ih (names ++ [p.name]) h with ⟨hin, hc⟩ | hc
        · rcases List.mem_append.mp hin with hin | hin
          · left
            refine ⟨hin, ?_⟩
            rw [List.countP_cons]
            omega
          · have hpn : m = p.name := by simpa using hin
            subst hpn
            right
            rw [List.countP_cons]
            have : bbNamed p.name p = true := by
              simp [bbNamed, hbb]
            simp only [this, if_pos]
            omega
        · right
          rw [List.countP_cons]
          omega
    · rw [nameConflictsGo, if_neg hbb] at h
      have hn : bbNamed m p = false := by
        simp only [bbNamed, Bool.and_eq_false_iff]
        left
        simpa using hbb
      rcases ih names h with ⟨hin, hc⟩ | hc
      · left
        refine ⟨hin, ?_⟩
        rw [List.countP_cons, hn]
        omega
      · right
        rw [List.countP_cons, hn]
        omega

/-- **C8 counterexample.** Two `BOTH` nodes can share the exported name `""`
(e.g. Blender objects named `.001`, `.002`, whose exported name
`name.split('.')[0]` is empty): `get_name_conflicts` returns `""`, which the
caller reads as "no conflict", and export proceeds and produces JSON instead
of failing with `NameConflict`. -/
theorem c8_counterexample :
    2 ≤ List.countP (bbNamed "") [⟨"", .both⟩, ⟨"", .both⟩] ∧
    get_name_conflicts [⟨"", .both⟩, ⟨"", .both⟩] = "" ∧
    export_model [⟨"", .both⟩, ⟨"", .both⟩] (fun _ => JValue.null) =
      .ok JValue.null := by
  refine ⟨by decide, rfl, rfl⟩

/-- **C8 (amended).** For every selection in which all `BONE`/`BOTH` nodes
have nonempty exported names and two of them share a name, the name-conflict
check reports a name that is indeed shared by at least two `BONE`/`BOTH`
nodes, and export fails with `NameConflict` of that name before any JSON is
produced (the JSON assembly is never invoked, whatever it is). -/
theorem c8_name_conflict (props : List NameProps)
    (hne : ∀ p ∈ props, (p.mctype = MCObjType.bone ∨ p.mctype = MCObjType.both) →
      p.name ≠ "")
    (hdup : ∃ n, 2 ≤ props.countP (bbNamed n)) :
    ∃ m, m ≠ "" ∧ get_name_conflicts props = m ∧
      2 ≤ props.countP (bbNamed m) ∧
      ∀ build, export_model props build = .error (.nameConflict m) := by
  obtain ⟨n, hn⟩ := hdup
  have hne' : get_name_conflicts props ≠ "" := by
    intro h0
    have := nameConflictsGo_empty_bound props [] hne h0 n
    simp only [List.not_mem_nil, if_neg, if_false] at this
    omega
  refine ⟨get_name_conflicts props, hne', rfl, ?_, ?_⟩
  · rcases nameConflictsGo_found props [] (get_name_conflicts props) rfl hne' with
      ⟨hin, _⟩ | hc
    · exact absurd hin (List.not_mem_nil _)
    · exact hc
  · intro build
    unfold export_model
    rw [if_pos hne']

/-- **C8 witness.** Two selected bones sharing the exported name `"arm"`. -/
theorem c8_witness :
    ∃ m, m ≠ "" ∧ get_name_conflicts [⟨"arm", .bone⟩, ⟨"arm", .bone⟩] = m ∧
      2 ≤ List.countP (bbNamed m) [⟨"arm", .bone⟩, ⟨"arm", .bone⟩] ∧
      ∀ build, export_model [⟨"arm", .bone⟩, ⟨"arm", .bone⟩] build =
        .error (.nameConflict m) :=
  c8_name_conflict [⟨"arm", .bone⟩, ⟨"arm", .bone⟩] (by decide) ⟨"arm", by decide⟩

theorem roundHalfEven_intCast (n : ℤ) : roundHalfEven (n : ℚ) = n := by
  unfold roundHalfEven
  rw [Int.floor_intCast]
  norm_num

theorem jsonRound_eq_pyRound3 (x : ℚ) : jnumVal (jsonRound x) = pyRound3 x := by
  simp only [jsonRound]
  have hz : (if pyRound3 x = 0 then (0:ℚ) else pyRound3 x) = pyRound3 x := by
    split <;> simp_all
  rw [hz]
  split
  · rename_i hden
    exact Rat.coe_int_num_of_den_eq_one hden
  · rfl

theorem jsonRound_int_iff (x : ℚ) :
    (∃ n, jsonRound x = .int n) ↔ (pyRound3 x).den = 1 := by
  simp only [jsonRound]
  have hz : (if pyRound3 x = 0 then (0:ℚ) else pyRound3 x) = pyRound3 x := by
    split <;> simp_all
  rw [hz]
  constructor
  · rintro ⟨n, hn⟩
    by_contra hd
    rw [if_neg hd] at hn
    cases hn
  · intro hd
    rw [if_pos hd]
    exact ⟨(pyRound3 x).num, rfl⟩

theorem jsonRound_zero (x : ℚ) (h : pyRound3 x = 0) : jsonRound x = .int 0 := by
  simp only [jsonRound, h]
  norm_num

/-- **C5 counterexample.** The `size` vector is additionally rounded to whole
integers (`[round(i) for i in get_vect_json(c_size)]`): for a component
`1.5` the document receives `2`, not the 3-decimal rounding `1.5`. -/
theorem c5_counterexample :
    size_json [(3:ℚ)/2] = [2] ∧ pyRound3 ((3:ℚ)/2) = 3/2 ∧
      ((2:ℤ) : ℚ) ≠ pyRound3 ((3:ℚ)/2) := by
  have h1 : pyRound3 ((3:ℚ)/2) = 3/2 := by
    norm_num [pyRound3, roundHalfEven, Int.fract]
  have h2 : jsonRound ((3:ℚ)/2) = .float (3/2) := by
    simp only [jsonRound, h1]
    norm_num
  have h3 : roundHalfEven ((3:ℚ)/2) = 2 := by
    norm_num [roundHalfEven, Int.fract]
  refine ⟨?_, h1, ?_⟩
  · unfold size_json get_vect_json
    simp [h2, h3]
  · rw [h1]
    norm_num

/-- **C5 (amended).** Every numeric vector written by the exporter
(`get_vect_json`: pivots, bone rotations, origins, uv, locator positions,
animation values) is rounded to 3 decimal digits, values that are integral
after rounding are emitted as Python `int`s (no trailing `.0`), and a
rounded value equal to zero (in particular `-0.0`) is emitted as the integer
`0`; however cube `size` components are additionally rounded to the nearest
integer (always emitted as `int`s), and a cube-rotation component that
rounds to exactly `-180` is emitted as `180`. -/
theorem c5_vector_serialization :
    (∀ x : ℚ, jnumVal (jsonRound x) = pyRound3 x) ∧
    (∀ x : ℚ, (∃ n, jsonRound x = .int n) ↔ (pyRound3 x).den = 1) ∧
    (∀ x : ℚ, pyRound3 x = 0 → jsonRound x = .int 0) ∧
    (∀ v : List ℚ, get_vect_json v = v.map jsonRound) ∧
    (∀ v : List ℚ, size_json v = v.map (fun x => roundHalfEven (pyRound3 x))) ∧
    (∀ v : List ℚ, rotation_json v =
      v.map (fun x => if pyRound3 x = -180 then .int 180 else jsonRound x)) := by
  refine ⟨jsonRound_eq_pyRound3, jsonRound_int_iff, jsonRound_zero,
    fun v => rfl, ?_, ?_⟩
  · intro v
    unfold size_json get_vect_json
    rw [List.map_map]
    apply List.map_congr_left
    intro x _
    simp only [Function.comp_apply]
    have hval := jsonRound_eq_pyRound3 x
    cases hj : jsonRound x with
    | int n =>
      rw [hj] at hval
      simp only [jnumVal] at hval
      simp only [← hval, roundHalfEven_intCast]
    | float q =>
      rw [hj] at hval
      simp only [jnumVal] at hval
      simp only [hval]
  · intro v
    unfold rotation_json get_vect_json
    rw [List.map_map]
    apply List.map_congr_left
    intro x _
    simp only [Function.comp_apply]
    rw [jsonRound_eq_pyRound3 x]

/-- **C5 witness.** `-0.0001` rounds to `-0.0` and is emitted as the integer
`0`. -/
theorem c5_witness : jsonRound (-(1:ℚ)/10000) = .int 0 :=
  c5_vector_serialization.2.2.1 (-(1:ℚ)/10000)
    (by norm_num [pyRound3, roundHalfEven, Int.fract])

theorem lexLeB_refl (a : List ℤ) : lexLeB a a = true := by
  induction a with
  | nil => rfl
  | cons x xs ih => simp [lexLeB, lt_irrefl, ih]

theorem lexLeB_total (a b : List ℤ) : lexLeB a b = true ∨ lexLeB b a = true := by
  induction a generalizing b with
  | nil => exact Or.inl rfl
  | cons x xs ih =>
    cases b with
    | nil => exact Or.inr rfl
    | cons y ys =>
      rcases lt_trichotomy x y with h | h | h
      · left; simp [lexLeB, h]
      · subst h
        rcases ih ys with h2 | h2
        · left; simp [lexLeB, lt_irrefl, h2]
        · right; simp [lexLeB, lt_irrefl, h2]
      · right; simp [lexLeB, h]

theorem lexLeB_trans (a b c : List ℤ) (hab : lexLeB a b = true)
    (hbc : lexLeB b c = true) : lexLeB a c = true := by
  induction a generalizing b c with
  | nil => rfl
  | cons x xs ih =>
    cases b with
    | nil => simp [lexLeB] at hab
    | cons y ys =>
      cases c with
      | nil => simp [lexLeB] at hbc
      | cons z zs =>
        rcases lt_trichotomy x y with h1 | h1 | h1
        · rcases lt_trichotomy y z with h2 | h2 | h2
          · simp [lexLeB, h1.trans h2]
          · subst h2; simp [lexLeB, h1]
          · rw [lexLeB, if_neg (by omega), if_pos h2] at hbc; cases hbc
        · subst h1
          rw [lexLeB, if_neg (lt_irrefl x), if_neg (lt_irrefl x)] at hab
          rcases lt_trichotomy x z with h2 | h2 | h2
          · simp [lexLeB, h2]
          · subst h2
            rw [lexLeB, if_neg (lt_irrefl x), if_neg (lt_irrefl x)] at hbc
            simp only [lexLeB, if_neg (lt_irrefl x)]
            exact ih ys zs hab hbc
          · rw [lexLeB, if_neg (by omega), if_pos h2] at hbc; cases hbc
        · rw [lexLeB, if_neg (by omega), if_pos h1] at hab; cases hab

instance : IsTotal (List ℤ) verGe :=
  ⟨fun a b => lexLeB_total b a⟩

instance : IsTrans (List ℤ) verGe :=
  ⟨fun a b c hab hbc => lexLeB_trans c b a hbc hab⟩

theorem find?_sorted_max {l : List (List ℤ)} {tv t : List ℤ}
    (hs : List.Sorted verGe l)
    (hf : l.find? (fun u => lexLeB u tv) = some t) :
    ∀ u ∈ l, lexLeB u tv = true → lexLeB u t = true := by
  induction l with
  | nil => cases hf
  | cons x xs ih =>
    rcases List.sorted_cons.mp hs with ⟨hx, hxs⟩
    by_cases hp : lexLeB x tv = true
    · rw [show List.find? (fun u => lexLeB u tv) (x :: xs) = some x from
        List.find?_cons_of_pos xs hp] at hf
      cases hf
      intro u hu _
      rcases List.mem_cons.mp hu with rfl | hu
      · exact lexLeB_refl u
      · exact hx u hu
    · rw [show List.find? (fun u => lexLeB u tv) (x :: xs) =
          List.find? (fun u => lexLeB u tv) xs from
        List.find?_cons_of_neg xs (by simpa using hp)] at hf
      intro u hu hutv
      rcases List.mem_cons.mp hu with rfl | hu
      · exact absurd hutv hp
      · exact ih hxs hf u hu hutv

/-- **C2.** `pick_version_parser` parses the declared `format_version` as a
dot-separated integer tuple and returns the greatest supported parser version
`≤` the declared tuple (lexicographically); it fails when no supported
version qualifies or when a string does not parse as a numeric tuple (both
failures raise `FileIsNotAModelException`, the spec's `UnsupportedVersion`).
In particular, for supported set `{"1.12.0", "1.8.0"}`, declared `"1.9.3"`
yields `"1.8.0"` and declared `"1.0.0"` fails. -/
theorem c2_version_resolution :
    pickVersionParser ["1.12.0", "1.8.0"] "1.9.3" = .ok "1.8.0" ∧
    pickVersionParser ["1.12.0", "1.8.0"] "1.0.0" =
      .error (.unsupportedVersion "1.0.0") ∧
    (∀ (parsers : List String) (version r : String),
      pickVersionParser parsers version = .ok r →
      ∃ ts tv t, parsers.mapM to_tuple = .ok ts ∧ to_tuple version = .ok tv ∧
        t ∈ ts ∧ lexLeB t tv = true ∧
        (∀ u ∈ ts, lexLeB u tv = true → lexLeB u t = true) ∧
        r = renderVersion t) ∧
    (∀ (parsers : List String) (version : String) (ts : List (List ℤ))
        (tv : List ℤ),
      parsers.mapM to_tuple = .ok ts → to_tuple version = .ok tv →
      (∀ u ∈ ts, ¬ lexLeB u tv = true) →
      pickVersionParser parsers version =
        .error (.unsupportedVersion version)) ∧
    (∀ (parsers : List String) (version : String) (ts : List (List ℤ))
        (e : LoadErr),
      parsers.mapM to_tuple = .ok ts → to_tuple version = .error e →
      pickVersionParser parsers version = .error e) := by
  refine ⟨by decide, by decide, ?_, ?_, ?_⟩
  · intro parsers version r h
    unfold pickVersionParser at h
    cases hm : parsers.mapM to_tuple with
    | error e => rw [hm, exceptBind_error] at h; cases h
    | ok ts =>
      rw [hm, exceptBind_ok] at h
      cases hv : to_tuple version with
      | error e => rw [hv, exceptBind_error] at h; cases h
      | ok tv =>
        rw [hv, exceptBind_ok] at h
        cases hf : (List.insertionSort verGe ts).find? (fun u => lexLeB u tv) with
        | none => rw [hf] at h; cases h
        | some t =>
          rw [hf] at h
          cases h
          have hperm := List.perm_insertionSort verGe ts
          have hmem : t ∈ ts :=
            hperm.mem_iff.mp (List.mem_of_find?_eq_some hf)
          have ht : lexLeB t tv = true := by
            have := List.find?_some hf
            simpa using this
          refine ⟨ts, tv, t, rfl, rfl, hmem, ht, ?_, rfl⟩
          intro u hu hutv
          exact find?_sorted_max (List.sorted_insertionSort verGe ts) hf u
            (hperm.mem_iff.mpr hu) hutv
  · intro parsers version ts tv hm hv hno
    unfold pickVersionParser
    rw [hm, exceptBind_ok, hv, exceptBind_ok]
    have hf : (List.insertionSort verGe ts).find? (fun u => lexLeB u tv) = none := by
      rw [List.find?_eq_none]
      intro u hu
      simpa using hno u ((List.perm_insertionSort verGe ts).mem_iff.mp hu)
    rw [hf]
  · intro parsers version ts e hm hv
    unfold pickVersionParser
    rw [hm, exceptBind_ok, hv, exceptBind_error]

/-- **C2 witness.** The success characterization applied at the concrete
instance of the spec: declared `"1.9.3"` against `{"1.12.0", "1.8.0"}`. -/
theorem c2_witness :
    ∃ ts tv t, (["1.12.0", "1.8.0"].mapM to_tuple = .ok ts) ∧
      to_tuple "1.9.3" = .ok tv ∧ t ∈ ts ∧ lexLeB t tv = true ∧
      (∀ u ∈ ts, lexLeB u tv = true → lexLeB u t = true) ∧
      "1.8.0" = renderVersion t :=
  c2_version_resolution.2.2.1 ["1.12.0", "1.8.0"] "1.9.3" "1.8.0" (by decide)

theorem alignUp_stop {t c : ℚ} (h : ¬ c < t) : alignUp t c = c := by
  rw [alignUp.eq_def]
  simp [h]

theorem alignUp_break {t c : ℚ} (h : c < t)
    (h2 : ((c + 360) - t)^2 > (c - t)^2) : alignUp t c = c := by
  rw [alignUp.eq_def]
  simp [h, h2]

theorem alignUp_step {t c : ℚ} (h : c < t)
    (h2 : ¬ ((c + 360) - t)^2 > (c - t)^2) :
    alignUp t c = alignUp t (c + 360) := by
  rw [alignUp.eq_def]
  simp [h, h2]

theorem alignDown_stop {t c : ℚ} (h : ¬ t < c) : alignDown t c = c := by
  rw [alignDown.eq_def]
  simp [h]

theorem alignDown_break {t c : ℚ} (h : t < c)
    (h2 : ((c - 360) - t)^2 > (c - t)^2) : alignDown t c = c := by
  rw [alignDown.eq_def]
  simp [h, h2]

theorem alignDown_step {t c : ℚ} (h : t < c)
    (h2 : ¬ ((c - 360) - t)^2 > (c - t)^2) :
    alignDown t c = alignDown t (c - 360) := by
  rw [alignDown.eq_def]
  simp [h, h2]

theorem alignAxis_zero_180 : alignAxis 0 180 = -180 := by
  unfold alignAxis
  rw [alignUp_stop (by norm_num)]
  rw [alignDown_step (by norm_num) (by norm_num)]
  norm_num
  rw [alignDown_stop (by norm_num)]

theorem alignAxis_zero_neg270 : alignAxis 0 (-270) = 90 := by
  unfold alignAxis
  rw [alignUp_step (by norm_num) (by norm_num)]
  norm_num
  rw [alignUp_stop (by norm_num)]
  rw [alignDown_break (by norm_num) (by norm_num)]

theorem alignAxis_zero_270 : alignAxis 0 270 = -90 := by
  unfold alignAxis
  rw [alignUp_stop (by norm_num)]
  rw [alignDown_step (by norm_num) (by norm_num)]
  norm_num
  rw [alignDown_stop (by norm_num)]

/-- **C3 counterexample.** At `v = (0,0,0)`, `rest = (0,45,0)`,
`previous = (0,0,0)` the aligned second candidate of the code differs from
the aligned spec-formula flip: the code feeds `(180, -270, 180)` (y-component
`-(v.y + 180 + 2*rest.y)`) while the spec's formula gives `(180, 270, 180)`
(y-component `-(v.y) + 180 + 2*rest.y`); after alignment the candidates are
`(-180, 90, -180)` and `(-180, -90, -180)`. -/
theorem c3_counterexample :
    (pickClosetLocation (secondCandidate ⟨0, 0, 0⟩ ⟨0, 45, 0⟩) ⟨0, 0, 0⟩).2 ≠
      (pickClosetLocation (flip_spec ⟨0, 0, 0⟩ ⟨0, 45, 0⟩) ⟨0, 0, 0⟩).2 := by
  have hsc : secondCandidate ⟨0, 0, 0⟩ ⟨0, 45, 0⟩ = ⟨180, -270, 180⟩ := by
    simp only [secondCandidate]
    norm_num
  have hfs : flip_spec ⟨0, 0, 0⟩ ⟨0, 45, 0⟩ = ⟨180, 270, 180⟩ := by
    simp only [flip_spec]
    norm_num
  rw [hsc, hfs]
  simp only [pickClosetLocation, alignAxis_zero_180, alignAxis_zero_neg270,
    alignAxis_zero_270]
  simp [Vec3.mk.injEq]
  norm_num

/-- **C3 (amended).** Candidate B of the rotation-continuity solver is
`align(flip(v, rest), previous)` where
`flip(v, rest) = (v.x + 180, -(v.y + 180 + 2*rest.y), v.z + 180)` — the whole
y-expression is negated, not just `v.y`. -/
theorem c3_flip_formula (v p r : Vec3) :
    pick_closest_rotation v p (some r) =
      (if (pickClosetLocation ⟨v.x + 180, -(v.y + 180 + 2 * r.y), v.z + 180⟩ p).1 <
          (pickClosetLocation v p).1
       then (pickClosetLocation ⟨v.x + 180, -(v.y + 180 + 2 * r.y), v.z + 180⟩ p).2
       else (pickClosetLocation v p).2) := by
  have h : secondCandidate v r = ⟨v.x + 180, -(v.y + 180 + 2 * r.y), v.z + 180⟩ := by
    simp only [secondCandidate, Vec3.mk.injEq]
    refine ⟨by ring, by ring, by ring⟩
  rw [pick_closest_rotation, Option.getD_some, h]

theorem vecXzy_add (a b : Vec3R) : vecXzy (a + b) = vecXzy a + vecXzy b := rfl

theorem chain_zero (props : List (ObjectId × PivotProps)) (op : PivotProps) :
    chain props op 0 = some op := rfl

theorem chain_succ (props : List (ObjectId × PivotProps)) (op : PivotProps)
    (n : ℕ) :
    chain props op (n + 1) = (chain props op n).bind (chainStep props) := rfl

theorem chain_add (props : List (ObjectId × PivotProps)) (op : PivotProps)
    (m n : ℕ) :
    chain props op (m + n) =
      (chain props op m).bind (fun o => chain props o n) := by
  induction n with
  | zero =>
    rw [Nat.add_zero]
    cases chain props op m with
    | none => rfl
    | some o => rfl
  | succ n ih =>
    rw [show m + (n + 1) = (m + n) + 1 from rfl, chain_succ, ih]
    cases chain props op m with
    | none => rfl
    | some o => rw [Option.some_bind, Option.some_bind, chain_succ]

theorem chain_isSome_of_le (props : List (ObjectId × PivotProps))
    (op : PivotProps) {m k : ℕ} (hk : k ≤ m)
    (hm : (chain props op m).isSome) : (chain props op k).isSome := by
  obtain ⟨d, rfl⟩ := Nat.exists_eq_add_of_le hk
  rw [chain_add] at hm
  cases hc : chain props op k with
  | none => rw [hc] at hm; simp at hm
  | some o => simp

/-- If the ancestor chain of `op` repeats (a cycle among the lookups), every
iterate of the chain exists. -/
theorem chain_forever_of_cycle (props : List (ObjectId × PivotProps))
    (op : PivotProps) {i j : ℕ} (hij : i < j)
    (hsome : (chain props op i).isSome)
    (heq : chain props op i = chain props op j) :
    ∀ n, (chain props op n).isSome := by
  have hper : ∀ q, chain props op (i + q) = chain props op (j + q) := by
    intro q
    rw [chain_add, chain_add, heq]
  have hjs : (chain props op j).isSome := heq ▸ hsome
  intro n
  induction n using Nat.strong_induction_on with
  | _ n ih =>
    by_cases hn : n ≤ j
    · exact chain_isSome_of_le props op hn hjs
    · push_neg at hn
      have hd : 1 ≤ j - i := by omega
      have h1 : n = j + (n - j) := by omega
      have h2 : n - (j - i) = i + (n - j) := by omega
      have hrw : chain props op n = chain props op (n - (j - i)) := by
        calc chain props op n = chain props op (j + (n - j)) := by rw [← h1]
          _ = chain props op (i + (n - j)) := (hper (n - j)).symm
          _ = chain props op (n - (j - i)) := by rw [← h2]
      rw [hrw]
      exact ih (n - (j - i)) (by omega)

/-- On an infinite ancestor chain, `_get_mcpivot` exhausts any recursion
depth budget and reports the recursion-limit error. -/
theorem getMcpivotAux_cycle (props : List (ObjectId × PivotProps)) :
    ∀ (fuel : ℕ) (op : PivotProps), (∀ n, (chain props op n).isSome) →
      getMcpivotAux props fuel op = .error .recursionLimit := by
  intro fuel
  induction fuel with
  | zero => intro op hinf; rfl
  | succ fuel ih =>
    intro op hinf
    have h1 := hinf 1
    rw [chain_succ, chain_zero, Option.some_bind] at h1
    cases hp : op.mcparent with
    | none => simp [chainStep, hp] at h1
    | some pid =>
      cases hl : lookupProps props pid with
      | none => simp [chainStep, hp, hl] at h1
      | some pp =>
        have hinfp : ∀ n, (chain props pp n).isSome := by
          intro n
          have := hinf (1 + n)
          rw [chain_add, chain_succ, chain_zero, Option.some_bind] at this
          simp only [chainStep, hp, hl, Option.some_bind] at this
          exact this
        rw [getMcpivotAux, hp]
        dsimp only
        rw [hl]
        dsimp only
        rw [ih pp hinfp]
        rfl

/-- **C4.** Pivot resolution: a parentless node's pivot is its world
translation (axis-permuted); a node with a Minecraft parent has pivot equal
to the (axis-permuted) local translation relative to the parent plus the
parent's pivot, also after the exporter's `* MINECRAFT_SCALE_FACTOR`
scaling; the recursion succeeds on every chain that reaches a root (with
recursion depth to spare); and on a parent chain containing a cycle it
reports the recursion-limit error (CPython's `RecursionError`) for every
depth budget instead of looping forever. -/
theorem c4_pivot_resolution :
    (∀ (props : List (ObjectId × PivotProps)) (fuel : ℕ) (op : PivotProps),
      op.mcparent = none →
      get_mcpivot props (fuel + 1) op = .ok (vecXzy (matToTranslation op.world))) ∧
    (∀ (props : List (ObjectId × PivotProps)) (fuel : ℕ) (op : PivotProps)
        (pid : ObjectId) (pp : PivotProps) (v w : Vec3R),
      op.mcparent = some pid → lookupProps props pid = some pp →
      get_mcpivot props (fuel + 1) op = .ok v →
      get_mcpivot props fuel pp = .ok w →
      v = vecXzy (local_crds pp.world op.world) + w ∧
      vscale (MINECRAFT_SCALE_FACTOR : ℝ) v =
        vscale (MINECRAFT_SCALE_FACTOR : ℝ) (vecXzy (local_crds pp.world op.world)) +
        vscale (MINECRAFT_SCALE_FACTOR : ℝ) w) ∧
    (∀ (props : List (ObjectId × PivotProps)) (op : PivotProps) (n : ℕ),
      rootedWithin props n op → ∀ fuel, n < fuel →
      ∃ v, get_mcpivot props fuel op = .ok v) ∧
    (∀ (props : List (ObjectId × PivotProps)) (op : PivotProps) (i j : ℕ),
      i < j → (chain props op i).isSome →
      chain props op i = chain props op j →
      ∀ fuel, get_mcpivot props fuel op = .error .recursionLimit) := by
  refine ⟨?_, ?_, ?_, ?_⟩
  · intro props fuel op hp
    unfold get_mcpivot getMcpivotAux
    rw [hp]
    rfl
  · intro props fuel op pid pp v w hp hl hv hw
    unfold get_mcpivot at hv hw
    unfold getMcpivotAux at hv
    rw [hp] at hv
    dsimp only at hv
    rw [hl] at hv
    dsimp only at hv
    cases haux : getMcpivotAux props fuel pp with
    | error e => rw [haux] at hv hw; cases hv
    | ok rest =>
      rw [haux] at hv hw
      simp only [Except.map, exceptBind_ok, exceptPure_ok] at hv hw
      cases hv
      cases hw
      refine ⟨vecXzy_add _ _, ?_⟩
      rw [vecXzy_add]
      show vscale _ (vecXzy (local_crds pp.world op.world) + vecXzy rest) = _
      simp only [vscale, vec3R_add_def]
      norm_num
      constructor
      · ring
      constructor
      · ring
      · ring
  · intro props op n hroot
    induction n generalizing op with
    | zero =>
      intro fuel hfuel
      obtain ⟨fuel, rfl⟩ : ∃ m, fuel = m + 1 := ⟨fuel - 1, by omega⟩
      unfold rootedWithin at hroot
      exact ⟨_, by unfold get_mcpivot getMcpivotAux; rw [hroot]; rfl⟩
    | succ n ih =>
      intro fuel hfuel
      obtain ⟨fuel, rfl⟩ : ∃ m, fuel = m + 1 := ⟨fuel - 1, by omega⟩
      unfold rootedWithin at hroot
      rcases hroot with hnone | ⟨pid, pp, hp, hl, hrest⟩
      · exact ⟨_, by unfold get_mcpivot getMcpivotAux; rw [hnone]; rfl⟩
      · obtain ⟨w, hw⟩ := ih pp hrest fuel (by omega)
        unfold get_mcpivot at hw
        cases haux : getMcpivotAux props fuel pp with
        | error e => rw [haux] at hw; cases hw
        | ok rest =>
          refine ⟨vecXzy (local_crds pp.world op.world + rest), ?_⟩
          unfold get_mcpivot getMcpivotAux
          rw [hp]
          dsimp only
          rw [hl]
          dsimp only
          rw [haux]
          rfl
  · intro props op i j hij hsome heq fuel
    have hinf := chain_forever_of_cycle props op hij hsome heq
    unfold get_mcpivot
    rw [getMcpivotAux_cycle props fuel op hinf]
    rfl

/-- **C4 witness.** Concrete instances: a parentless node, a two-node
parent chain (with identity world matrices), a rooted chain, and a
self-cycle that exhausts the recursion budget. -/
theorem c4_witness :
    get_mcpivot [] 1 ⟨1, none⟩ = .ok (vecXzy (matToTranslation 1)) ∧
    (vecXzy (local_crds (1 : Mat4) 1 + matToTranslation 1) =
        vecXzy (local_crds (1 : Mat4) 1) + vecXzy (matToTranslation 1) ∧
      vscale (MINECRAFT_SCALE_FACTOR : ℝ)
          (vecXzy (local_crds (1 : Mat4) 1 + matToTranslation 1)) =
        vscale (MINECRAFT_SCALE_FACTOR : ℝ) (vecXzy (local_crds (1 : Mat4) 1)) +
        vscale (MINECRAFT_SCALE_FACTOR : ℝ) (vecXzy (matToTranslation 1))) ∧
    (∃ v, get_mcpivot [] 1 ⟨1, none⟩ = .ok v) ∧
    get_mcpivot [(⟨"c", ""⟩, ⟨1, some ⟨"c", ""⟩⟩)] 5 ⟨1, some ⟨"c", ""⟩⟩ =
      .error .recursionLimit := by
  refine ⟨c4_pivot_resolution.1 [] 0 ⟨1, none⟩ rfl, ?_, ?_, ?_⟩
  · exact c4_pivot_resolution.2.1
      [(⟨"b", ""⟩, ⟨1, none⟩), (⟨"a", ""⟩, ⟨1, some ⟨"b", ""⟩⟩)] 1
      ⟨1, some ⟨"b", ""⟩⟩ ⟨"b", ""⟩ ⟨1, none⟩
      (vecXzy (local_crds (1 : Mat4) 1 + matToTranslation 1))
      (vecXzy (matToTranslation 1)) rfl rfl rfl rfl
  · exact c4_pivot_resolution.2.2.1 [] ⟨1, none⟩ 0 rfl 1 (by norm_num)
  · exact c4_pivot_resolution.2.2.2 [(⟨"c", ""⟩, ⟨1, some ⟨"c", ""⟩⟩)]
      ⟨1, some ⟨"c", ""⟩⟩ 0 1 (by norm_num) rfl rfl 5

theorem alignUp_mod_aux : ∀ (n : ℕ) (t c : ℚ), (⌈(t - c) / 360⌉).toNat ≤ n →
    ∃ k : ℤ, alignUp t c = c + 360 * k := by
  intro n
  induction n with
  | zero =>
    intro t c hn
    have hstop : ¬ c < t := by
      intro hlt
      have h1 : (0:ℚ) < t - c := by linarith
      have h4 : 0 < ⌈(t - c) / 360⌉ := Int.ceil_pos.mpr (by positivity)
      omega
    exact ⟨0, by rw [alignUp_stop hstop]; ring⟩
  | succ n ih =>
    intro t c hn
    by_cases hlt : c < t
    · by_cases hbr : ((c + 360) - t)^2 > (c - t)^2
      · exact ⟨0, by rw [alignUp_break hlt hbr]; ring⟩
      · have hmeas : (⌈(t - (c + 360)) / 360⌉).toNat ≤ n := by
          have h1 : (0:ℚ) < t - c := by linarith
          have h2 : (t - (c + 360)) / 360 = (t - c) / 360 - ((1:ℤ):ℚ) := by
            push_cast; ring
          have h3 : ⌈(t - (c + 360)) / 360⌉ = ⌈(t - c) / 360⌉ - 1 := by
            rw [h2, Int.ceil_sub_int]
          have h4 : 0 < ⌈(t - c) / 360⌉ := Int.ceil_pos.mpr (by positivity)
          omega
        obtain ⟨k, hk⟩ := ih t (c + 360) hmeas
        exact ⟨k + 1, by rw [alignUp_step hlt hbr, hk]; push_cast; ring⟩
    · exact ⟨0, by rw [alignUp_stop hlt]; ring⟩

theorem alignUp_mod (t c : ℚ) : ∃ k : ℤ, alignUp t c = c + 360 * k :=
  alignUp_mod_aux ((⌈(t - c) / 360⌉).toNat) t c le_rfl

theorem alignDown_mod_aux : ∀ (n : ℕ) (t c : ℚ), (⌈(c - t) / 360⌉).toNat ≤ n →
    ∃ k : ℤ, alignDown t c = c + 360 * k := by
  intro n
  induction n with
  | zero =>
    intro t c hn
    have hstop : ¬ t < c := by
      intro hlt
      have h1 : (0:ℚ) < c - t := by linarith
      have h4 : 0 < ⌈(c - t) / 360⌉ := Int.ceil_pos.mpr (by positivity)
      omega
    exact ⟨0, by rw [alignDown_stop hstop]; ring⟩
  | succ n ih =>
    intro t c hn
    by_cases hlt : t < c
    · by_cases hbr : ((c - 360) - t)^2 > (c - t)^2
      · exact ⟨0, by rw [alignDown_break hlt hbr]; ring⟩
      · have hmeas : (⌈((c - 360) - t) / 360⌉).toNat ≤ n := by
          have h1 : (0:ℚ) < c - t := by linarith
          have h2 : ((c - 360) - t) / 360 = (c - t) / 360 - ((1:ℤ):ℚ) := by
            push_cast; ring
          have h3 : ⌈((c - 360) - t) / 360⌉ = ⌈(c - t) / 360⌉ - 1 := by
            rw [h2, Int.ceil_sub_int]
          have h4 : 0 < ⌈(c - t) / 360⌉ := Int.ceil_pos.mpr (by positivity)
          omega
        obtain ⟨k, hk⟩ := ih t (c - 360) hmeas
        exact ⟨k - 1, by rw [alignDown_step hlt hbr, hk]; push_cast; ring⟩
    · exact ⟨0, by rw [alignDown_stop hlt]; ring⟩

theorem alignDown_mod (t c : ℚ) : ∃ k : ℤ, alignDown t c = c + 360 * k :=
  alignDown_mod_aux ((⌈(c - t) / 360⌉).toNat) t c le_rfl

theorem alignAxis_mod (t c : ℚ) : ∃ k : ℤ, alignAxis t c = c + 360 * k := by
  obtain ⟨k1, h1⟩ := alignUp_mod t c
  obtain ⟨k2, h2⟩ := alignDown_mod t (alignUp t c)
  exact ⟨k1 + k2, by rw [alignAxis, h2, h1]; push_cast; ring⟩

theorem radOfDeg_add_360 (a : ℚ) (k : ℤ) :
    radOfDeg (a + 360 * k) = radOfDeg a + k * (2 * Real.pi) := by
  unfold radOfDeg
  push_cast
  ring

theorem cos_radOfDeg_congr {a b : ℚ} (h : ∃ k : ℤ, a = b + 360 * k) :
    Real.cos (radOfDeg a) = Real.cos (radOfDeg b) := by
  obtain ⟨k, rfl⟩ := h
  rw [radOfDeg_add_360, Real.cos_add_int_mul_two_pi]

theorem sin_radOfDeg_congr {a b : ℚ} (h : ∃ k : ℤ, a = b + 360 * k) :
    Real.sin (radOfDeg a) = Real.sin (radOfDeg b) := by
  obtain ⟨k, rfl⟩ := h
  rw [radOfDeg_add_360, Real.sin_add_int_mul_two_pi]

theorem Rx_congr {a b : ℚ} (h : ∃ k : ℤ, a = b + 360 * k) :
    Rx (radOfDeg a) = Rx (radOfDeg b) := by
  unfold Rx
  rw [cos_radOfDeg_congr h, sin_radOfDeg_congr h]

theorem Ry_congr {a b : ℚ} (h : ∃ k : ℤ, a = b + 360 * k) :
    Ry (radOfDeg a) = Ry (radOfDeg b) := by
  unfold Ry
  rw [cos_radOfDeg_congr h, sin_radOfDeg_congr h]

theorem Rz_congr {a b : ℚ} (h : ∃ k : ℤ, a = b + 360 * k) :
    Rz (radOfDeg a) = Rz (radOfDeg b) := by
  unfold Rz
  rw [cos_radOfDeg_congr h, sin_radOfDeg_congr h]

theorem decode_congr {u v : Vec3} (hx : ∃ k : ℤ, u.x = v.x + 360 * k)
    (hy : ∃ k : ℤ, u.y = v.y + 360 * k) (hz : ∃ k : ℤ, u.z = v.z + 360 * k) :
    decodeXZY u = decodeXZY v := by
  unfold decodeXZY
  have hny : ∃ k : ℤ, -u.y = -v.y + 360 * k := by
    obtain ⟨k, hk⟩ := hy
    exact ⟨-k, by rw [hk]; push_cast; ring⟩
  rw [Rx_congr hx, Ry_congr hz, Rz_congr hny]

theorem flip_decode (a b c : ℝ) :
    Ry (b + Real.pi) * Rz (Real.pi - c) * Rx (a + Real.pi) = Ry b * Rz c * Rx a := by
  unfold Rx Ry Rz
  ext i j
  fin_cases i <;> fin_cases j <;>
    simp [Matrix.mul_apply, Fin.sum_univ_three, Matrix.vecHead, Matrix.vecTail,
      Function.comp, Real.cos_add, Real.sin_add, Real.cos_sub, Real.sin_sub,
      Real.cos_pi, Real.sin_pi]

theorem radOfDeg_add_180 (a : ℚ) :
    radOfDeg (a + 180) = radOfDeg a + Real.pi := by
  unfold radOfDeg
  push_cast
  ring

theorem decode_flip (v : Vec3) :
    decodeXZY ⟨v.x + 180, -v.y - 180, v.z + 180⟩ = decodeXZY v := by
  unfold decodeXZY
  dsimp only
  have h2 : radOfDeg (-(-v.y - 180)) = Real.pi - radOfDeg (-v.y) := by
    unfold radOfDeg
    push_cast
    ring
  rw [radOfDeg_add_180, radOfDeg_add_180, h2, flip_decode]

/-- **C1 counterexample.** With rest rotation `(0, 90, 0)` (the
`original_rotation` of issue 25), previous `(180, -360, 180)` and raw
rotation `(0, 0, 0)`, the flip candidate wins and the returned vector
`(180, -360, 180)` decodes to a different rotation matrix than `(0, 0, 0)`:
the claim fails for rest vectors whose y-component is not a multiple of
180 degrees. -/
theorem c1_counterexample :
    pick_closest_rotation ⟨0, 0, 0⟩ ⟨180, -360, 180⟩ (some ⟨0, 90, 0⟩) =
      ⟨180, -360, 180⟩ ∧
    decodeXZY ⟨180, -360, 180⟩ ≠ decodeXZY ⟨0, 0, 0⟩ := by
  constructor
  · have hsc : secondCandidate ⟨0, 0, 0⟩ ⟨0, 90, 0⟩ = ⟨180, -360, 180⟩ := by
      simp only [secondCandidate]
      norm_num
    have ha1 : alignAxis 180 180 = 180 := by
      unfold alignAxis
      rw [alignUp_stop (by norm_num), alignDown_stop (by norm_num)]
    have ha2 : alignAxis (-360) (-360) = -360 := by
      unfold alignAxis
      rw [alignUp_stop (by norm_num), alignDown_stop (by norm_num)]
    have ha3 : alignAxis 180 0 = 0 := by
      unfold alignAxis
      rw [alignUp_step (by norm_num) (by norm_num)]
      norm_num
      rw [alignUp_stop (by norm_num)]
      rw [alignDown_step (by norm_num) (by norm_num)]
      norm_num
      rw [alignDown_stop (by norm_num)]
    have ha4 : alignAxis (-360) 0 = -360 := by
      unfold alignAxis
      rw [alignUp_stop (by norm_num)]
      rw [alignDown_step (by norm_num) (by norm_num)]
      norm_num
      rw [alignDown_stop (by norm_num)]
    simp only [pick_closest_rotation, Option.getD_some, hsc,
      pickClosetLocation, ha1, ha2, ha3, ha4]
    norm_num
  · intro h
    have h0 : radOfDeg 0 = 0 := by unfold radOfDeg; push_cast; ring
    have h180 : radOfDeg 180 = Real.pi := by unfold radOfDeg; push_cast; ring
    have h360 : radOfDeg (-(-360 : ℚ)) = 2 * Real.pi := by
      unfold radOfDeg; push_cast; ring
    have hzz : radOfDeg (-(0 : ℚ)) = 0 := by unfold radOfDeg; push_cast; ring
    have := congrArg (fun M : Matrix (Fin 3) (Fin 3) ℝ => M 0 0) h
    simp only [decodeXZY] at this
    rw [h180, h360, h0, hzz] at this
    simp [Rx, Ry, Rz, Matrix.mul_apply, Fin.sum_univ_three, Matrix.vecHead,
      Matrix.vecTail, Function.comp, Real.cos_pi, Real.sin_pi,
      Real.cos_two_pi, Real.sin_two_pi] at this
    norm_num at this

/-- **C1 (amended).** For every rotation vector `v`, previous vector `p` and
rest vector `r` whose y-component is an integer multiple of 180 degrees (in
particular the default rest `(0, 0, 0)`), the result of
`pick_closest_rotation(v, p, r)` decodes — in the fixed X-then-Z-then-Y
order — to the same rotation matrix as `v`, whichever of the two candidates
wins. -/
theorem c1_orientation_preserved (v p : Vec3) (o : Option Vec3)
    (h : ∃ k : ℤ, (o.getD ⟨0, 0, 0⟩).y = 180 * k) :
    decodeXZY (pick_closest_rotation v p o) = decodeXZY v := by
  obtain ⟨k, hk⟩ := h
  unfold pick_closest_rotation
  dsimp only
  split
  · -- the flip candidate wins
    have hstep1 : decodeXZY (pickClosetLocation
        (secondCandidate v (o.getD ⟨0, 0, 0⟩)) p).2 =
        decodeXZY (secondCandidate v (o.getD ⟨0, 0, 0⟩)) := by
      apply decode_congr
      · exact alignAxis_mod p.x _
      · exact alignAxis_mod p.y _
      · exact alignAxis_mod p.z _
    have hstep2 : decodeXZY (secondCandidate v (o.getD ⟨0, 0, 0⟩)) =
        decodeXZY ⟨v.x + 180, -v.y - 180, v.z + 180⟩ := by
      apply decode_congr
      · exact ⟨0, by simp only [secondCandidate]; push_cast; ring⟩
      · exact ⟨-k, by simp only [secondCandidate]; rw [hk]; push_cast; ring⟩
      · exact ⟨0, by simp only [secondCandidate]; push_cast; ring⟩
    rw [hstep1, hstep2, decode_flip]
  · -- the raw candidate wins
    apply decode_congr
    · exact alignAxis_mod p.x _
    · exact alignAxis_mod p.y _
    · exact alignAxis_mod p.z _

/-- **C1 witness.** The identity instance with the default rest rotation. -/
theorem c1_witness :
    decodeXZY (pick_closest_rotation ⟨0, 0, 0⟩ ⟨0, 0, 0⟩ (some ⟨0, 0, 0⟩)) =
      decodeXZY ⟨0, 0, 0⟩ :=
  c1_orientation_preserved ⟨0, 0, 0⟩ ⟨0, 0, 0⟩ (some ⟨0, 0, 0⟩)
    ⟨0, by norm_num⟩
